import Mathlib

/-!
Verification development for the spawnee task-orchestration core.

The definitions below are a shallow embedding of the repository's core
modules:

* `src/core/task-queue.ts` — the dependency-aware task queue (a state
  machine over a DAG of tasks);
* `src/core/orchestrator.ts` — the orchestrator that turns ready tasks
  into bounded-concurrency external jobs;
* `src/cursor/client.ts` — template dependency validation
  (`validateDependencies` / `hasCycle`);
* the `PipelineController` QA-cycle loop (second half of
  `src/core/orchestrator.ts`).

Stateful TypeScript classes become explicit state-passing functions; the
synchronous `EventEmitter` emissions become explicit event lists returned
alongside the new state.  Wall-clock data (`completedAt` timestamps,
timers, poll intervals) and prompt-composition fields that no claim
mentions (`files`, `validation`, `repository` overrides) are omitted.
External collaborators (the cursor agent service, the validation gate
runner, the beads issue mapper) are modelled as oracles, exactly as the
spec designates them external interfaces.
-/

namespace Spawnee

/-! ## Task data model (src/core/task-queue.ts, lines 3-34) -/

/-- `TaskStatus` from task-queue.ts line 26. -/
inductive TaskStatus
  | pending
  | ready
  | running
  | completed
  | failed
  | paused_at_breakpoint
deriving DecidableEq, Repr

/-- `TaskResult` (task-queue.ts lines 28-32); the wall-clock `completedAt`
timestamp is omitted. -/
structure TaskResult where
  branch : Option String := none
  pullRequestUrl : Option String := none
deriving DecidableEq, Repr

/-- `TaskInput` (task-queue.ts line 34): a `Task` without the runtime
fields `status`, `attempts`, `agentId`, `error`, `result`. -/
structure TaskInput where
  id : String
  name : String := ""
  prompt : String := ""
  dependsOn : List String := []
  priority : Int := 0
  branch : Option String := none
  timeout : Option Nat := none
  retries : Option Nat := none
  model : Option String := none
  breakpoint : Bool := false
  complete : Bool := false
  beadsIssueId : Option String := none
deriving DecidableEq, Repr

/-- `Task` (task-queue.ts lines 3-24). -/
structure Task where
  id : String
  name : String := ""
  prompt : String := ""
  dependsOn : List String := []
  priority : Int := 0
  branch : Option String := none
  timeout : Option Nat := none
  retries : Option Nat := none
  model : Option String := none
  breakpoint : Bool := false
  complete : Bool := false
  beadsIssueId : Option String := none
  status : TaskStatus
  agentId : Option String := none
  attempts : Nat
  error : Option String := none
  result : Option TaskResult := none
deriving DecidableEq, Repr

/-- `{ ...input, status: 'pending', attempts: 0 }` (task-queue.ts lines 41, 54). -/
def TaskInput.toTask (i : TaskInput) : Task :=
  { id := i.id, name := i.name, prompt := i.prompt, dependsOn := i.dependsOn
    priority := i.priority, branch := i.branch, timeout := i.timeout
    retries := i.retries, model := i.model, breakpoint := i.breakpoint
    complete := i.complete, beadsIssueId := i.beadsIssueId
    status := TaskStatus.pending, attempts := 0 }

/-! ## Queue state (src/core/task-queue.ts, lines 36-181)

The JS `Map<string, Task>` is modelled as an insertion-ordered list with
`Map.set` semantics (`mapSet`); the JS `Set<string>` of completed ids as an
insertion-ordered list with `Set.add` semantics (`setAdd`). -/

/-- The `TaskQueue` fields (task-queue.ts lines 37-38). -/
structure TaskQueue where
  tasks : List Task := []
  completed : List String := []
deriving DecidableEq, Repr

/-- The synchronous events the queue emits. -/
inductive QEvent
  | taskReady (id : String)
  | taskStarted (id : String)
  | taskCompleted (id : String)
  | taskRetry (id : String)
  | taskFailed (id : String)
  | taskPausedAtBreakpoint (id : String)
  | allComplete
deriving DecidableEq, Repr

/-- JS `Map.set`: replace in place if the key exists, else append. -/
def mapSet (ts : List Task) (t : Task) : List Task :=
  if ts.any (fun u => u.id == t.id) then
    ts.map (fun u => if u.id == t.id then t else u)
  else
    ts ++ [t]

/-- JS `Set.add`: append if absent. -/
def setAdd (s : List String) (x : String) : List String :=
  if s.contains x then s else s ++ [x]

/-- `this.tasks.get(id)` (task-queue.ts line 81-83). -/
def TaskQueue.getTask (q : TaskQueue) (id : String) : Option Task :=
  q.tasks.find? (fun t => t.id == id)

/-- Mutation of the task record stored under `id`. -/
def updateTask (q : TaskQueue) (id : String) (f : Task → Task) : TaskQueue :=
  { q with tasks := q.tasks.map (fun t => if t.id == id then f t else t) }

/-- The condition of `updateReadyTasks` (task-queue.ts lines 67-69):
status is `pending` and every dependency id is in the completed set. -/
def becomesReady (completed : List String) (t : Task) : Bool :=
  t.status == TaskStatus.pending && t.dependsOn.all (fun d => completed.contains d)

/-- `updateReadyTasks` (task-queue.ts lines 65-73). -/
def updateReadyTasks (q : TaskQueue) : TaskQueue × List QEvent :=
  ⟨{ q with tasks := q.tasks.map (fun t =>
      if becomesReady q.completed t then { t with status := TaskStatus.ready } else t) },
   (q.tasks.filter (becomesReady q.completed)).map (fun t => QEvent.taskReady t.id)⟩

/-- `allDone` of `checkAllComplete` (task-queue.ts lines 148-150): every
task is in a terminal state. -/
def TaskQueue.allDone (q : TaskQueue) : Bool :=
  q.tasks.all (fun t =>
    t.status == TaskStatus.completed || t.status == TaskStatus.failed ||
    t.status == TaskStatus.paused_at_breakpoint)

/-- `anyPaused` of `checkAllComplete` (task-queue.ts line 152). -/
def TaskQueue.anyPaused (q : TaskQueue) : Bool :=
  q.tasks.any (fun t => t.status == TaskStatus.paused_at_breakpoint)

/-- `checkAllComplete` (task-queue.ts lines 147-154). -/
def TaskQueue.checkAllComplete (q : TaskQueue) : List QEvent :=
  if q.allDone && !q.anyPaused then [QEvent.allComplete] else []

/-- `getReadyTasks` stable insertion step: a task goes in front of the
first task of lower-or-equal priority (earlier tasks win ties, matching
the stable JS sort with comparator `b.priority - a.priority`). -/
def insertByPriority (t : Task) : List Task → List Task
  | [] => [t]
  | u :: us => if u.priority ≤ t.priority then t :: u :: us else u :: insertByPriority t us

/-- Stable sort by descending priority. -/
def sortByPriorityDesc : List Task → List Task
  | [] => []
  | t :: ts => insertByPriority t (sortByPriorityDesc ts)

/-- `getReadyTasks` (task-queue.ts lines 75-79). -/
def TaskQueue.getReadyTasks (q : TaskQueue) : List Task :=
  sortByPriorityDesc (q.tasks.filter (fun t => t.status == TaskStatus.ready))

/-- `markRunning` (task-queue.ts lines 89-96). -/
def markRunning (q : TaskQueue) (id : String) (agentId : String) :
    TaskQueue × List QEvent :=
  match q.getTask id with
  | none => (q, [])
  | some _ =>
    (updateTask q id (fun t =>
       { t with status := TaskStatus.running, agentId := some agentId,
                attempts := t.attempts + 1 }),
     [QEvent.taskStarted id])

/-- `markCompleted` (task-queue.ts lines 98-109). -/
def markCompleted (q : TaskQueue) (id : String) (result : Option TaskResult)
    (checkComplete : Bool := true) : TaskQueue × List QEvent :=
  match q.getTask id with
  | none => (q, [])
  | some _ =>
    let q1 := updateTask q id (fun t =>
      { t with status := TaskStatus.completed, result := some (result.getD {}) })
    let q2 : TaskQueue := { q1 with completed := setAdd q1.completed id }
    let r := updateReadyTasks q2
    (r.1, QEvent.taskCompleted id :: r.2 ++ (if checkComplete then r.1.checkAllComplete else []))

/-- `markFailed` (task-queue.ts lines 111-125); the `maxRetries`
parameter's default value 2 is the source's default parameter. -/
def markFailed (q : TaskQueue) (id : String) (error : String)
    (maxRetries : Nat := 2) : TaskQueue × List QEvent :=
  match q.getTask id with
  | none => (q, [])
  | some t =>
    if t.attempts < t.retries.getD maxRetries then
      (updateTask q id (fun u =>
         { u with error := some error, status := TaskStatus.ready }),
       [QEvent.taskRetry id])
    else
      let q1 := updateTask q id (fun u =>
        { u with error := some error, status := TaskStatus.failed })
      (q1, QEvent.taskFailed id :: q1.checkAllComplete)

/-- `markPausedAtBreakpoint` (task-queue.ts lines 127-135): sets the
paused status and result, adds nothing to the completed set, recomputes
no readiness. -/
def markPausedAtBreakpoint (q : TaskQueue) (id : String)
    (result : Option TaskResult) : TaskQueue × List QEvent :=
  match q.getTask id with
  | none => (q, [])
  | some _ =>
    (updateTask q id (fun t =>
       { t with status := TaskStatus.paused_at_breakpoint,
                result := some (result.getD {}) }),
     [QEvent.taskPausedAtBreakpoint id])

/-- `resumeFromBreakpoint` (task-queue.ts lines 137-145). -/
def resumeFromBreakpoint (q : TaskQueue) (id : String) : TaskQueue × List QEvent :=
  match q.getTask id with
  | none => (q, [])
  | some t =>
    if t.status == TaskStatus.paused_at_breakpoint then
      let q1 := updateTask q id (fun u => { u with status := TaskStatus.completed })
      let q2 : TaskQueue := { q1 with completed := setAdd q1.completed id }
      let r := updateReadyTasks q2
      (r.1, QEvent.taskCompleted id :: r.2 ++ r.1.checkAllComplete)
    else (q, [])

/-- `addTask` (task-queue.ts lines 40-50). -/
def addTask (q : TaskQueue) (input : TaskInput) : TaskQueue × List QEvent :=
  let t := input.toTask
  let q1 : TaskQueue := { q with tasks := mapSet q.tasks t }
  if t.complete then markCompleted q1 t.id (some {}) false
  else updateReadyTasks q1

/-- `addTasks` (task-queue.ts lines 52-63): insert every input (marking
`complete`-flagged ones completed without the final check), then one
readiness pass. -/
def addTasksStep (acc : TaskQueue × List QEvent) (input : TaskInput) :
    TaskQueue × List QEvent :=
  let t := input.toTask
  let q1 : TaskQueue := { acc.1 with tasks := mapSet acc.1.tasks t }
  if t.complete then
    let r := markCompleted q1 t.id (some {}) false
    (r.1, acc.2 ++ r.2)
  else (q1, acc.2)

def addTasks (q : TaskQueue) (inputs : List TaskInput) : TaskQueue × List QEvent :=
  let mid := inputs.foldl addTasksStep (q, [])
  let r := updateReadyTasks mid.1
  (r.1, mid.2 ++ r.2)

/-- One attempt cycle of a task that fails every attempt: the orchestrator
marks it running (`markRunning`, incrementing `attempts`) and the failed
job callback marks it failed (`markFailed`). -/
def failCycle (q : TaskQueue) (id agentId error : String) (m : Nat) : TaskQueue :=
  (markFailed (markRunning q id agentId).1 id error m).1

/-- `k` consecutive attempt cycles that all fail. -/
def failCycles (q : TaskQueue) (id agentId error : String) (m : Nat) : Nat → TaskQueue
  | 0 => q
  | Nat.succ k => failCycle (failCycles q id agentId error m k) id agentId error m

/-- The public queue operations, reified so a statement can quantify over
"any queue operation". -/
inductive QOp
  | addTaskOp (input : TaskInput)
  | addTasksOp (inputs : List TaskInput)
  | markRunningOp (id agentId : String)
  | markCompletedOp (id : String) (result : Option TaskResult) (checkComplete : Bool)
  | markFailedOp (id error : String) (maxRetries : Nat)
  | markPausedOp (id : String) (result : Option TaskResult)
  | resumeOp (id : String)

/-- Dispatch a reified queue operation. -/
def applyQOp (q : TaskQueue) : QOp → TaskQueue × List QEvent
  | QOp.addTaskOp input => addTask q input
  | QOp.addTasksOp inputs => addTasks q inputs
  | QOp.markRunningOp id agentId => markRunning q id agentId
  | QOp.markCompletedOp id result b => markCompleted q id result b
  | QOp.markFailedOp id error m => markFailed q id error m
  | QOp.markPausedOp id result => markPausedAtBreakpoint q id result
  | QOp.resumeOp id => resumeFromBreakpoint q id

/-! ## Orchestrator (src/core/orchestrator.ts, lines 63-433)

The orchestrator's wall-clock machinery (status polling, timeout timers,
state-store snapshots, logging) is omitted; timer expiry and the external
job callbacks all funnel into `handleAgentFailed` / `handleAgentComplete`,
which are modelled.  The external agent service's `createAgent` is an
oracle `ok : String → Bool` deciding, per task id, whether job creation
succeeds at this call; the thrown error's message text is abstracted to a
fixed string (no claim depends on it). -/

structure Orchestrator where
  queue : TaskQueue := {}
  activeAgents : List (String × String) := []
  maxConcurrent : Nat
  isRunning : Bool := false
  nextAgentId : Nat := 0
deriving DecidableEq, Repr

/-- `this.activeAgents.get(agentId)` (the JS `Map` from agent id to task
id). -/
def lookupAgent (o : Orchestrator) (agentId : String) : Option String :=
  (o.activeAgents.find? (fun p => p.1 == agentId)).map Prod.snd

/-- `this.activeAgents.delete(agentId)`. -/
def removeAgent (l : List (String × String)) (agentId : String) :
    List (String × String) :=
  l.filter (fun p => p.1 != agentId)

/-- The orchestrator's synchronous `allComplete` listener
(orchestrator.ts lines 115-122): when the queue emits `allComplete`, the
orchestrator sets `isRunning = false` (monitoring/timer teardown and
state-store clearing omitted). -/
def applyQueueEvents (o : Orchestrator) (events : List QEvent) : Orchestrator :=
  if QEvent.allComplete ∈ events then { o with isRunning := false } else o

/-- One iteration of the `for` loop in `trySpawnAgents` (orchestrator.ts
lines 167-174): `spawnAgent` succeeds (record the active mapping, mark
the task running with a fresh agent id) or job creation throws and the
catch block marks the task failed — with `markFailed`'s default retry
budget, since no third argument is passed. -/
def spawnAgentStep (ok : String → Bool) (o : Orchestrator) (task : Task) :
    Orchestrator :=
  if ok task.id then
    let agentId := "agent-" ++ toString o.nextAgentId
    let r := markRunning o.queue task.id agentId
    { o with activeAgents := o.activeAgents ++ [(agentId, task.id)],
             queue := r.1,
             nextAgentId := o.nextAgentId + 1 }
  else
    let r := markFailed o.queue task.id "Failed to create agent"
    applyQueueEvents { o with queue := r.1 } r.2

/-- `trySpawnAgents` (orchestrator.ts lines 159-175). -/
def trySpawnAgents (ok : String → Bool) (o : Orchestrator) : Orchestrator :=
  if !o.isRunning then o
  else
    let availableSlots : Int := (o.maxConcurrent : Int) - (o.activeAgents.length : Int)
    if availableSlots ≤ 0 then o
    else
      let readyTasks := o.queue.getReadyTasks.take availableSlots.toNat
      readyTasks.foldl (spawnAgentStep ok) o

/-- `handleAgentFailed` (orchestrator.ts lines 355-364), also reached by
the timeout timer and the `cancelled` callback. -/
def handleAgentFailed (ok : String → Bool) (o : Orchestrator)
    (agentId error : String) : Orchestrator :=
  match lookupAgent o agentId with
  | none => o
  | some taskId =>
    let r := markFailed o.queue taskId error
    trySpawnAgents ok (applyQueueEvents
      { o with activeAgents := removeAgent o.activeAgents agentId,
               queue := r.1 } r.2)

/-- `handleAgentComplete` (orchestrator.ts lines 310-338): clear the
active mapping, pause at the breakpoint or complete normally, then keep
spawning. -/
def handleAgentComplete (ok : String → Bool) (o : Orchestrator)
    (agentId : String) (result : Option TaskResult) : Orchestrator :=
  match lookupAgent o agentId with
  | none => o
  | some taskId =>
    match o.queue.getTask taskId with
    | none => o
    | some task =>
      let o1 : Orchestrator := { o with activeAgents := removeAgent o.activeAgents agentId }
      let o2 :=
        if task.breakpoint then
          let r := markPausedAtBreakpoint o1.queue taskId result
          applyQueueEvents { o1 with queue := r.1 } r.2
        else
          let r := markCompleted o1.queue taskId result
          applyQueueEvents { o1 with queue := r.1 } r.2
      trySpawnAgents ok o2

/-- The `continue` outcome of `handleBreakpoint` (orchestrator.ts lines
343-347). -/
def resolveBreakpointContinue (ok : String → Bool) (o : Orchestrator)
    (taskId : String) : Orchestrator :=
  let r := resumeFromBreakpoint o.queue taskId
  trySpawnAgents ok (applyQueueEvents { o with queue := r.1 } r.2)

/-- `stop` (orchestrator.ts lines 403-418): sets `isRunning = false`;
monitoring/timers are wall-clock and the best-effort external
cancellations do not touch the modelled state. -/
def stopOrchestrator (o : Orchestrator) : Orchestrator :=
  { o with isRunning := false }

/-- `start` (orchestrator.ts lines 150-157); starting while already
running throws, modelled as leaving the state unchanged. -/
def startOrchestrator (ok : String → Bool) (o : Orchestrator) : Orchestrator :=
  if o.isRunning then o else trySpawnAgents ok { o with isRunning := true }

/-- `loadTasks` (orchestrator.ts lines 142-148). -/
def loadTasks (o : Orchestrator) (inputs : List TaskInput) : Orchestrator :=
  { o with queue := (addTasks o.queue inputs).1 }

/-- The orchestrator's event-driven transitions: any of its entry points
may fire in any order (spawn re-entry covers the synchronous `taskReady`
listener). -/
inductive OStep : Orchestrator → Orchestrator → Prop
  | startStep (ok : String → Bool) (o : Orchestrator) :
      OStep o (startOrchestrator ok o)
  | spawnStep (ok : String → Bool) (o : Orchestrator) :
      OStep o (trySpawnAgents ok o)
  | completeStep (ok : String → Bool) (o : Orchestrator) (agentId : String)
      (result : Option TaskResult) :
      OStep o (handleAgentComplete ok o agentId result)
  | failStep (ok : String → Bool) (o : Orchestrator) (agentId error : String) :
      OStep o (handleAgentFailed ok o agentId error)
  | resumeStep (ok : String → Bool) (o : Orchestrator) (taskId : String) :
      OStep o (resolveBreakpointContinue ok o taskId)
  | stopStep (o : Orchestrator) :
      OStep o (stopOrchestrator o)

/-- Orchestrator states reachable from a fresh instance (no active
agents) loaded with any task set. -/
inductive OReach : Orchestrator → Prop
  | init (maxConcurrent : Nat) (inputs : List TaskInput) :
      OReach (loadTasks { maxConcurrent := maxConcurrent } inputs)
  | step (o o' : Orchestrator) (h : OReach o) (hs : OStep o o') : OReach o'

/-- Iterated spawn attempts (each a `trySpawnAgents` call, as retriggered
by queue events). -/
def spawnAttempts (ok : String → Bool) (o : Orchestrator) : Nat → Orchestrator
  | 0 => o
  | Nat.succ k => trySpawnAgents ok (spawnAttempts ok o k)

/-! ## Template dependency validation (src/cursor/client.ts, lines 309-347)

`validateDependencies` runs inside `parseTemplate`, before the parsed task
set is handed to anyone: a thrown error (modelled as `Except.error`) aborts
template construction, so no orchestrator ever receives such a set and zero
external jobs are started for it.  JS `Set`s are insertion-ordered lists as
above; the JS `Map` built by `new Map(tasks.map(t => [t.id, t]))` resolves
duplicate ids to the last entry, hence the lookup on the reversed list. -/

/-- `taskMap.get(taskId)` for `taskMap = new Map(tasks.map(t => [t.id, t]))`
(client.ts line 326): later `Map` entries overwrite earlier ones, so the
lookup finds the last task with the given id. -/
def taskMapGet (ts : List TaskInput) (taskId : String) : Option TaskInput :=
  ts.reverse.find? (fun t => t.id == taskId)

/-- The `visited` and `recursionStack` sets of `hasCycle` (client.ts lines
324-325). -/
structure DfsState where
  visited : List String := []
  recursionStack : List String := []
deriving DecidableEq, Repr

/-- The `for (const depId of task.dependsOn)` loop of `dfs` (client.ts lines
332-337), parameterised by the recursive call: skip the recursive descent
when `depId` is already visited, return `true` if the descent found a cycle
or `depId` is on the recursion stack afterwards, else continue.  `none`
signals fuel exhaustion of the descent. -/
def dfsDeps (visit : DfsState → String → Option (Bool × DfsState)) :
    DfsState → List String → Option (Bool × DfsState)
  | s, [] => some (false, s)
  | s, depId :: rest =>
    match (if s.visited.contains depId then some (false, s) else visit s depId) with
    | none => none
    | some (r, s1) =>
      if r then some (true, s1)
      else if s1.recursionStack.contains depId then some (true, s1)
      else dfsDeps visit s1 rest

/-- `dfs(taskId)` (client.ts lines 327-340): mark `taskId` visited and on the
recursion stack, return `false` for an unknown task (the source forgets to
pop the stack on this path), otherwise scan its dependencies and pop the
stack on a cycle-free return.  Recursion is paid for with fuel; `none` means
the fuel ran out (with the fuel chosen in `hasCycle` this never happens,
as every nested call consumes a fresh unvisited id). -/
def dfsVisit (ts : List TaskInput) : Nat → DfsState → String → Option (Bool × DfsState)
  | 0, _, _ => none
  | Nat.succ fuel, s, taskId =>
    let s1 : DfsState := { visited := setAdd s.visited taskId
                           recursionStack := setAdd s.recursionStack taskId }
    match taskMapGet ts taskId with
    | none => some (false, s1)
    | some t =>
      match dfsDeps (fun s2 d => dfsVisit ts fuel s2 d) s1 t.dependsOn with
      | none => none
      | some (true, s2) => some (true, s2)
      | some (false, s2) =>
        some (false, { s2 with recursionStack := s2.recursionStack.erase taskId })

/-- The `for (const task of tasks)` loop of `hasCycle` (client.ts lines
341-345): start a DFS from every not-yet-visited task id. -/
def hasCycleLoop (visit : DfsState → String → Option (Bool × DfsState)) :
    DfsState → List TaskInput → Option Bool
  | _, [] => some false
  | s, t :: rest =>
    if s.visited.contains t.id then hasCycleLoop visit s rest
    else
      match visit s t.id with
      | none => none
      | some (true, _) => some true
      | some (false, s1) => hasCycleLoop visit s1 rest

/-- Every id the DFS can ever be called on: the task ids (top-level calls)
and every dependency id (nested calls). -/
def allDfsIds (ts : List TaskInput) : List String :=
  ts.map TaskInput.id ++ (ts.map TaskInput.dependsOn).flatten

/-- `hasCycle(tasks)` (client.ts lines 323-347).  Nested `dfs` calls are made
only on unvisited ids, and every call immediately marks its argument
visited, so the recursion depth is bounded by the number of distinct ids;
`allDfsIds ts |>.length + 1` fuel therefore always suffices.  Fuel
exhaustion (unreachable) conservatively reports a cycle. -/
def hasCycle (ts : List TaskInput) : Bool :=
  match hasCycleLoop (dfsVisit ts ((allDfsIds ts).length + 1)) {} ts with
  | none => true
  | some b => b

/-- The error string pushed for an unknown dependency (client.ts line 315). -/
def unknownDepMsg (taskId depId : String) : String :=
  "Task \"" ++ taskId ++ "\" depends on unknown task \"" ++ depId ++ "\""

/-- The error string pushed for a cyclic graph (client.ts line 318). -/
def cycleErrorMsg : String := "Circular dependency detected in task graph"

/-- The `errors` array of `validateDependencies` (client.ts lines 310-318):
one message per unknown dependency, in task order then dependency order,
then the cycle message if `hasCycle` fires. -/
def dependencyErrors (ts : List TaskInput) : List String :=
  (ts.map (fun t =>
    (t.dependsOn.filter (fun d => !(ts.map TaskInput.id).contains d)).map
      (fun d => unknownDepMsg t.id d))).flatten
  ++ (if hasCycle ts then [cycleErrorMsg] else [])

/-- `validateDependencies(tasks)` (client.ts lines 309-321): throws (here:
`Except.error`) if and only if `errors` is non-empty, with all messages
joined by newlines. -/
def validateDependencies (ts : List TaskInput) : Except String Unit :=
  if (dependencyErrors ts).isEmpty then Except.ok ()
  else Except.error
    ("Template validation failed:\n" ++ String.intercalate "\n" (dependencyErrors ts))

/-- The dependency ids of `u` under the map semantics of `hasCycle`: the
`dependsOn` list of the task `taskMap.get(u)` resolves to, empty for an
unknown id. -/
def depsOf (ts : List TaskInput) (u : String) : List String :=
  match taskMapGet ts u with
  | none => []
  | some t => t.dependsOn

/-- A non-empty path in the dependency graph: `DepPath ts u v` holds when
the graph has a chain of one or more `dependsOn` edges from `u` to `v`. -/
inductive DepPath (ts : List TaskInput) : String → String → Prop
  | single {u d : String} (h : d ∈ depsOf ts u) : DepPath ts u d
  | cons {u d v : String} (h : d ∈ depsOf ts u) (p : DepPath ts d v) : DepPath ts u v

/-- The dependency relation of the task set contains a cycle. -/
def CyclicDeps (ts : List TaskInput) : Prop := ∃ u, DepPath ts u u

/-- Accessibility in the dependency graph: every dependency chain out of `u`
is finite, i.e. `u` lies on no cycle (proved below). -/
inductive DAcc (ts : List TaskInput) : String → Prop
  | mk (u : String) (h : ∀ d ∈ depsOf ts u, DAcc ts d) : DAcc ts u

/-- The invariant of the DFS state: the recursion stack is a duplicate-free
subset of the visited set, and every visited id off the stack has been fully
explored without finding a cycle. -/
def DfsInv (ts : List TaskInput) (s : DfsState) : Prop :=
  (∀ w ∈ s.recursionStack, w ∈ s.visited) ∧
  s.recursionStack.Nodup ∧
  (∀ w ∈ s.visited, w ∉ s.recursionStack → DAcc ts w)

/-- Postcondition of a cycle-free `dfs(u)` call: the invariant is preserved,
the visited set grows monotonically and now holds `u`, the recursion stack
gains only unknown ids (the leak on the unknown-task path, which also keeps
an unknown `u` itself on the stack), and `u` is fully explored. -/
def VPost (ts : List TaskInput) (s : DfsState) (u : String) (s1 : DfsState) : Prop :=
  DfsInv ts s1 ∧
  (∀ w ∈ s.visited, w ∈ s1.visited) ∧
  u ∈ s1.visited ∧
  (∀ w ∈ s1.recursionStack, w ∈ s.recursionStack ∨ taskMapGet ts w = none) ∧
  (taskMapGet ts u = none → u ∈ s1.recursionStack) ∧
  DAcc ts u

/-- Postcondition of a cycle-free dependency scan: as `VPost`, and every
scanned dependency is fully explored. -/
def DPost (ts : List TaskInput) (s : DfsState) (ds : List String) (s1 : DfsState) : Prop :=
  DfsInv ts s1 ∧
  (∀ w ∈ s.visited, w ∈ s1.visited) ∧
  (∀ w ∈ s1.recursionStack, w ∈ s.recursionStack ∨ taskMapGet ts w = none) ∧
  (∀ d ∈ ds, DAcc ts d)

/-- Invariant of the top-level `hasCycle` loop: the DFS invariant, and the
recursion stack holds only unknown ids (it starts empty and cycle-free DFS
calls leak only unknown ids onto it). -/
def LoopInv (ts : List TaskInput) (s : DfsState) : Prop :=
  DfsInv ts s ∧ ∀ w ∈ s.recursionStack, taskMapGet ts w = none

/-! ## Pipeline controller (src/core/orchestrator.ts, PipelineController,
lines 454-754)

The controller's external collaborators, all asynchronous IO — the
orchestrator run of Phase 3, the `ValidationRunner` of Phase 4, the
`BeadsMapper` issue creation and `readBeadsBrief` — are modelled as oracles
in a `PipelineEnv`; artifact generation (Phase 5) and git branch merging
mutate nothing the controller returns besides the `artifact` field and are
omitted.  The `for` loop of `run` is paid for with fuel equal to the loop
bound `maxCycles`, which is exact: the JS loop runs at most `maxCycles`
iterations. -/

/-- `IGateFailure` (src/validation/types.ts). -/
structure IGateFailure where
  gate : String := ""
  file : Option String := none
  line : Option Nat := none
  column : Option Nat := none
  message : String := ""
  rawOutput : String := ""
  testName : Option String := none
  ruleName : Option String := none
deriving DecidableEq, Repr

/-- `IGateResult` (src/validation/types.ts). -/
structure IGateResult where
  gate : String := ""
  passed : Bool := false
  command : String := ""
  exitCode : Int := 0
  failures : List IGateFailure := []
  rawStdout : String := ""
  rawStderr : String := ""
  durationMs : Nat := 0
deriving DecidableEq, Repr

/-- `IValidationResult` (src/validation/types.ts). -/
structure IValidationResult where
  allPassed : Bool := false
  cycle : Nat := 0
  maxCycles : Nat := 0
  gateResults : List IGateResult := []
deriving DecidableEq, Repr

/-- The `defaults` block of a parsed template used by `generateRetryTasks`. -/
structure TemplateDefaults where
  timeout : Option Nat := none
  retries : Option Nat := none
  model : Option String := none
deriving DecidableEq, Repr

/-- The fields of `ParsedTemplate` that `PipelineController.run` and
`generateRetryTasks` read.  `gates` stands for `validation_strategy`; the
zod schema bounds `max_qa_cycles` to 1..10 with default 3 (client.ts line
251). -/
structure ParsedTemplate where
  tasks : List TaskInput := []
  gates : List String := []
  max_qa_cycles : Nat := 3
  defaults : TemplateDefaults := {}
  constraints : List String := []
  scope : List String := []
deriving DecidableEq, Repr

/-- The `{ completed, failed }` results of a Phase 3 orchestrator run. -/
structure TaskResultsPair where
  completed : List Task := []
  failed : List Task := []
deriving DecidableEq, Repr

/-- Oracles for the controller's external collaborators, indexed by the
cycle counter: `phase3` is `executePhase3` (the orchestrator run), `phase4`
is `executePhase4` (the `ValidationRunner`), `createIssues` is
`BeadsMapper.createIssuesFromResults`, `readBrief` is `readBeadsBrief`. -/
structure PipelineEnv where
  phase3 : Nat → List TaskInput → TaskResultsPair
  phase4 : Nat → IValidationResult
  createIssues : Nat → List String
  readBrief : String → Option String

/-- JS `Array.prototype.join(sep)`. -/
def joinSep (sep : String) : List String → String
  | [] => ""
  | [x] => x
  | x :: y :: rest => x ++ sep ++ joinSep sep (y :: rest)

/-- JS truthiness of an optional string field: present and non-empty. -/
def optStrTruthy : Option String → Bool
  | none => false
  | some s => !(s == "")

/-- JS truthiness of an optional number field: present and non-zero. -/
def optNatTruthy : Option Nat → Bool
  | none => false
  | some n => !(n == 0)

/-- One failure line of the failure summary (orchestrator.ts lines 656-660):
the message plus, for a truthy `file`, its location with an optional line
number. -/
def failureLine (f : IGateFailure) : String :=
  "  - " ++ f.message ++
    (if optStrTruthy f.file then
      " in " ++ f.file.getD "" ++
        (if optNatTruthy f.line then ":" ++ Nat.repr (f.line.getD 0) else "")
    else "")

/-- One gate's block of the failure summary (orchestrator.ts lines 653-664):
the gate heading plus the first ten failure lines. -/
def gateFailureBlock (r : IGateResult) : String :=
  "### " ++ r.gate ++ " failures:\n" ++ joinSep "\n" ((r.failures.take 10).map failureLine)

/-- The aggregated `failureSummary` (orchestrator.ts lines 653-666): one
block per failing gate, joined by blank lines. -/
def failureSummary (failedGateResults : List IGateResult) : String :=
  joinSep "\n\n" (failedGateResults.map gateFailureBlock)

/-- The `briefEntries` loop (orchestrator.ts lines 668-677): a bullet for
every original task with a truthy beads issue id whose brief is truthy. -/
def briefEntries (rb : String → Option String) (tasks : List TaskInput) : List String :=
  tasks.filterMap (fun task =>
    if optStrTruthy task.beadsIssueId then
      match rb (task.beadsIssueId.getD "") with
      | none => none
      | some brief =>
        if brief == "" then none
        else some ("- **" ++ task.beadsIssueId.getD "" ++ "** (" ++ task.name ++ "): " ++ brief)
    else none)

/-- The `branchEntries` list (orchestrator.ts lines 679-682). -/
def branchEntries (tasks : List TaskInput) : List String :=
  (tasks.filter (fun t => optStrTruthy t.branch)).map (fun t => "- origin/" ++ t.branch.getD "")

/-- JS `s.split('\n')[0]`. -/
def firstLine (s : String) : String := (s.splitOn "\n").headD ""

/-- The `taskSummaries` string (orchestrator.ts lines 698-701). -/
def taskSummaries (tasks : List TaskInput) : String :=
  joinSep "\n"
    (tasks.map (fun t => "- **" ++ t.name ++ "** (`" ++ t.id ++ "`): " ++ firstLine t.prompt))

/-- The fixed heading of the failures section (orchestrator.ts line 714). -/
def failuresToFixHeader : String :=
  "### Failures to Fix\n\nThe following validation gates failed. Fix the issues described below.\n\n"

/-- The failures section of the retry prompt (orchestrator.ts line 714). -/
def failuresToFixPart (failed : List IGateResult) : String :=
  failuresToFixHeader ++ failureSummary failed

/-- The beads-issues and closing-instructions section (orchestrator.ts
lines 727-739). -/
def beadsIssuesPart (issueIds : List String) : String :=
  "### Beads Issues\nQA failure issues: " ++ joinSep ", " issueIds
    ++ "\n\nAfter fixing all issues:\n1. Run the failing gate commands to verify your fixes\n2. Close the related beads issues with `bd close "
    ++ joinSep " " issueIds
    ++ "`\n3. Commit and push your changes\n\n## Important\n- Only fix the specific failures listed above\n- Do not refactor or change unrelated code\n- Verify your fixes pass the relevant gate commands before completing"

/-- The `promptParts` array of `generateRetryTasks` (orchestrator.ts lines
684-739), in push order; the conditional sections appear only when their
source lists are non-empty. -/
def retryPromptParts (tpl : ParsedTemplate) (rb : String → Option String)
    (issueIds : List String) (failed : List IGateResult) : List String :=
  ["## QA Fix Task"]
  ++ (if (briefEntries rb tpl.tasks).isEmpty then [] else
      ["### Prior Implementation Context\nThe original agents documented their approach in these beads issues:\n"
        ++ joinSep "\n" (briefEntries rb tpl.tasks)])
  ++ ["### Original Task Scope\n" ++ taskSummaries tpl.tasks]
  ++ (if (branchEntries tpl.tasks).isEmpty then [] else
      ["### Branches to Merge\nBefore starting, merge these branches:\n"
        ++ joinSep "\n" (branchEntries tpl.tasks)])
  ++ [failuresToFixPart failed]
  ++ (if tpl.constraints.isEmpty then [] else
      ["### Constraints\n" ++ joinSep "\n" (tpl.constraints.map (fun c => "- " ++ c))])
  ++ (if tpl.scope.isEmpty then [] else
      ["### Scope\nFocus on these areas:\n" ++ joinSep "\n" (tpl.scope.map (fun s => "- " ++ s))])
  ++ [beadsIssuesPart issueIds]

/-- `generateRetryTasks` (orchestrator.ts lines 646-753): pushes exactly one
task whose prompt joins the prompt parts with blank lines, with empty
`dependsOn`, priority 100 and the template defaults. -/
def generateRetryTasks (tpl : ParsedTemplate) (rb : String → Option String)
    (issueIds : List String) (failedGateResults : List IGateResult) (cycle : Nat) :
    List TaskInput :=
  [{ id := "qa-fix-c" ++ Nat.repr (cycle + 1)
     name := "QA Fix — Cycle " ++ Nat.repr (cycle + 2)
     prompt := joinSep "\n\n" (retryPromptParts tpl rb issueIds failedGateResults)
     dependsOn := []
     priority := 100
     branch := some ("cursor/spawnee/qa-fix-c" ++ Nat.repr (cycle + 2))
     timeout := tpl.defaults.timeout
     retries := tpl.defaults.retries
     model := tpl.defaults.model
     breakpoint := false }]

/-- The QA retry loop of `PipelineController.run` (orchestrator.ts lines
493-534), fuel = remaining loop iterations (`maxCycles - cycle`).  Carries
the loop state: `validationHistory.cycles`, `lastTaskResults`, whether the
escalation event fired, and — as instrumentation — the value of
`currentTasks` passed to Phase 3 in each executed cycle.  Returns
`(cycles, lastTaskResults, escalated, taskSets)`. -/
def runCycles (tpl : ParsedTemplate) (env : PipelineEnv) :
    Nat → Nat → List TaskInput → List IValidationResult → TaskResultsPair → Bool →
    List (List TaskInput) →
    List IValidationResult × TaskResultsPair × Bool × List (List TaskInput)
  | 0, _, _, hist, lastR, esc, sets => (hist, lastR, esc, sets)
  | Nat.succ fuel, cycle, currentTasks, hist, _, esc, sets =>
    let lastR := env.phase3 cycle currentTasks
    let sets1 := sets ++ [currentTasks]
    if tpl.gates.isEmpty then (hist, lastR, esc, sets1)
    else
      let vres := env.phase4 cycle
      let hist1 := hist ++ [vres]
      if vres.allPassed then (hist1, lastR, esc, sets1)
      else if tpl.max_qa_cycles ≤ cycle + 1 then (hist1, lastR, true, sets1)
      else
        runCycles tpl env fuel (cycle + 1)
          (generateRetryTasks tpl env.readBrief (env.createIssues cycle)
            (vres.gateResults.filter (fun r => !r.passed)) cycle)
          hist1 lastR esc sets1

/-- The observable outcome of `PipelineController.run`: the `success` flag
and task results of the returned `IPipelineResult`, the recorded
`validationHistory.cycles`, whether escalation fired, and the per-cycle
task sets. -/
structure PipelineResult where
  success : Bool
  taskResults : TaskResultsPair
  cycles : List IValidationResult
  escalated : Bool
  taskSets : List (List TaskInput)
deriving Repr

/-- `PipelineController.run` (orchestrator.ts lines 482-554): run the loop
from cycle 0 on the template's tasks, then
`success = cycles.length === 0 || cycles[cycles.length - 1].allPassed`. -/
def runPipeline (tpl : ParsedTemplate) (env : PipelineEnv) : PipelineResult :=
  let out := runCycles tpl env tpl.max_qa_cycles 0 tpl.tasks [] {} false []
  { success := match out.1.getLast? with
      | none => true
      | some r => r.allPassed
    taskResults := out.2.1
    cycles := out.1
    escalated := out.2.2.1
    taskSets := out.2.2.2 }

/-- A one-gate template with a single QA cycle, used as a concrete input. -/
def qaTemplate : ParsedTemplate :=
  { tasks := [{ id := "t1", name := "impl", prompt := "do it" }]
    gates := ["unit"]
    max_qa_cycles := 1 }

/-- An environment whose single gate always fails, used as a concrete
input. -/
def qaEnv : PipelineEnv :=
  { phase3 := fun _ _ => {}
    phase4 := fun c =>
      { allPassed := false, cycle := c, maxCycles := 1
        gateResults := [{ gate := "unit", passed := false
                          failures := [{ gate := "unit", message := "assertion failed" }] }] }
    createIssues := fun _ => ["bd-1"]
    readBrief := fun _ => none }

/-! ## Queue observations and invariants -/

/-- The status recorded for a task id (`none` when the id is unknown). -/
def statusOf (q : TaskQueue) (id : String) : Option TaskStatus :=
  (q.getTask id).map Task.status

/-- The JS `Map` keys are unique; queues built through `addTask`/`addTasks`
keep one record per id. -/
def UniqueIds (q : TaskQueue) : Prop :=
  (q.tasks.map Task.id).Nodup

/-- Every `ready` or `running` task has all its dependencies in the
completed set. -/
def DepsInv (q : TaskQueue) : Prop :=
  ∀ t ∈ q.tasks, (t.status = TaskStatus.ready ∨ t.status = TaskStatus.running) →
    ∀ d ∈ t.dependsOn, d ∈ q.completed

/-- The transitions of the task state machine (spec section 3):
`pending → ready → running → (completed | ready | failed |
paused_at_breakpoint)` and `paused_at_breakpoint → completed`, plus
staying put.  `running → ready` is the failed-retryable re-ready edge. -/
def stepAllowed : TaskStatus → TaskStatus → Bool
  | TaskStatus.pending, TaskStatus.ready => true
  | TaskStatus.ready, TaskStatus.running => true
  | TaskStatus.running, TaskStatus.completed => true
  | TaskStatus.running, TaskStatus.ready => true
  | TaskStatus.running, TaskStatus.failed => true
  | TaskStatus.running, TaskStatus.paused_at_breakpoint => true
  | TaskStatus.paused_at_breakpoint, TaskStatus.completed => true
  | s, s' => s == s'

/-- `QStep q q'` holds when `q'` results from `q` by a queue operation
invoked as the task state machine prescribes (and as the orchestrator
invokes them): `markRunning` on a `ready` task, `markCompleted` /
`markFailed` / `markPausedAtBreakpoint` on a `running` task,
`resumeFromBreakpoint` at any time (it is a no-op unless the task is
paused). -/
inductive QStep : TaskQueue → TaskQueue → Prop
  | runStep (q : TaskQueue) (id agentId : String)
      (h : statusOf q id = some TaskStatus.ready) :
      QStep q (markRunning q id agentId).1
  | completeStep (q : TaskQueue) (id : String) (result : Option TaskResult)
      (h : statusOf q id = some TaskStatus.running) :
      QStep q (markCompleted q id result true).1
  | failStep (q : TaskQueue) (id error : String) (m : Nat)
      (h : statusOf q id = some TaskStatus.running) :
      QStep q (markFailed q id error m).1
  | pauseStep (q : TaskQueue) (id : String) (result : Option TaskResult)
      (h : statusOf q id = some TaskStatus.running) :
      QStep q (markPausedAtBreakpoint q id result).1
  | resumeStep (q : TaskQueue) (id : String) :
      QStep q (resumeFromBreakpoint q id).1

/-- Queue states reachable from an `addTasks` load of an empty queue by
guarded steps. -/
inductive QReach : TaskQueue → Prop
  | load (inputs : List TaskInput) : QReach (addTasks {} inputs).1
  | step (q q' : TaskQueue) (h : QReach q) (hs : QStep q q') : QReach q'

lemma setAdd_subset {s : List String} {x y : String} (h : x ∈ s) : x ∈ setAdd s y := by
  unfold setAdd; split <;> simp [h]

lemma getTask_updateTask (q : TaskQueue) (id : String) (f : Task → Task)
    (hf : ∀ t, (f t).id = t.id) (id' : String) :
    (updateTask q id f).getTask id' =
      (q.getTask id').map (fun t => if t.id == id then f t else t) := by
  show List.find? _ (q.tasks.map _) = _
  rw [List.find?_map]
  have hpred : ((fun t : Task => t.id == id') ∘ fun t => if t.id == id then f t else t)
      = fun t : Task => t.id == id' := by
    funext t
    by_cases h : t.id = id <;> simp [h, hf]
  rw [hpred]
  rfl

lemma getTask_updateReadyTasks (q : TaskQueue) (id' : String) :
    (updateReadyTasks q).1.getTask id' =
      (q.getTask id').map (fun t =>
        if becomesReady q.completed t then { t with status := TaskStatus.ready } else t) := by
  show List.find? _ (q.tasks.map _) = _
  rw [List.find?_map]
  have hpred : ((fun t : Task => t.id == id') ∘ fun t =>
      if becomesReady q.completed t then { t with status := TaskStatus.ready } else t)
      = fun t : Task => t.id == id' := by
    funext t
    by_cases h : becomesReady q.completed t <;> simp [h]
  rw [hpred]
  rfl

lemma completed_updateTask (q : TaskQueue) (id : String) (f : Task → Task) :
    (updateTask q id f).completed = q.completed := rfl

lemma completed_updateReadyTasks (q : TaskQueue) :
    (updateReadyTasks q).1.completed = q.completed := rfl

lemma mapIds_updateTask (q : TaskQueue) (id : String) (f : Task → Task)
    (hf : ∀ t, (f t).id = t.id) :
    (updateTask q id f).tasks.map Task.id = q.tasks.map Task.id := by
  show (q.tasks.map _).map Task.id = _
  rw [List.map_map]
  exact List.map_congr_left (fun t _ => by by_cases h : t.id = id <;> simp [h, hf])

lemma mapIds_updateReadyTasks (q : TaskQueue) :
    (updateReadyTasks q).1.tasks.map Task.id = q.tasks.map Task.id := by
  show (q.tasks.map _).map Task.id = _
  rw [List.map_map]
  exact List.map_congr_left (fun t _ => by by_cases h : becomesReady q.completed t <;> simp [h])

lemma getTask_unique {q : TaskQueue} {id : String} {t0 u : Task}
    (hU : UniqueIds q) (h : q.getTask id = some t0) (hu : u ∈ q.tasks)
    (hid : u.id = id) : u = t0 := by
  have h' : List.find? (fun t => t.id == id) q.tasks = some t0 := h
  have h1 : t0 ∈ q.tasks := List.mem_of_find?_eq_some h'
  have h2 := List.find?_some h'
  have h3 : t0.id = id := by simpa using h2
  exact List.inj_on_of_nodup_map hU hu h1 (by rw [hid, h3])

lemma becomesReady_deps {c : List String} {t : Task}
    (h : becomesReady c t = true) : ∀ d ∈ t.dependsOn, d ∈ c := by
  intro d hd
  unfold becomesReady at h
  simp only [Bool.and_eq_true, List.all_eq_true] at h
  simpa using h.2 d hd

lemma becomesReady_pending {c : List String} {t : Task}
    (h : becomesReady c t = true) : t.status = TaskStatus.pending := by
  unfold becomesReady at h
  simp only [Bool.and_eq_true] at h
  simpa using h.1

/-! ### Preservation of the invariants by the queue operations -/

lemma depsInv_of_same_tasks {q q' : TaskQueue} (ht : q'.tasks = q.tasks)
    (hc : ∀ x ∈ q.completed, x ∈ q'.completed) (h : DepsInv q) : DepsInv q' := by
  intro t htm hs d hd
  rw [ht] at htm
  exact hc d (h t htm hs d hd)

lemma depsInv_completedExtend {ts : List Task} {c : List String} (id : String)
    (h : DepsInv ⟨ts, c⟩) : DepsInv ⟨ts, setAdd c id⟩ :=
  fun t ht hs d hd => setAdd_subset (h t ht hs d hd)

lemma depsInv_updateReadyTasks {q : TaskQueue} (h : DepsInv q) :
    DepsInv (updateReadyTasks q).1 := by
  intro t' ht' hs' d hd
  simp only [updateReadyTasks, List.mem_map] at ht'
  obtain ⟨t, ht, rfl⟩ := ht'
  by_cases hb : becomesReady q.completed t = true
  · simp only [hb, if_true] at hs' hd ⊢
    exact becomesReady_deps hb d hd
  · simp only [hb, if_false] at hs' hd ⊢
    exact h t ht hs' d hd

lemma depsInv_updateTask {q : TaskQueue} {id : String} {f : Task → Task}
    (h : DepsInv q)
    (hdeps : ∀ t, (f t).dependsOn = t.dependsOn)
    (hstat : ∀ t ∈ q.tasks, t.id = id →
      ((f t).status = TaskStatus.ready ∨ (f t).status = TaskStatus.running) →
      ∀ d ∈ t.dependsOn, d ∈ q.completed) :
    DepsInv (updateTask q id f) := by
  intro t' ht' hs' d hd
  simp only [updateTask, List.mem_map] at ht'
  obtain ⟨t, ht, rfl⟩ := ht'
  by_cases hc : t.id = id
  · simp only [hc, beq_self_eq_true, if_true] at hs' hd ⊢
    rw [hdeps t] at hd
    exact hstat t ht hc hs' d hd
  · have hcb : (t.id == id) = false := by simpa using hc
    simp only [hcb, Bool.false_eq_true, if_false] at hs' hd ⊢
    exact h t ht hs' d hd

lemma uniqueIds_of_same_ids {q q' : TaskQueue}
    (h : q'.tasks.map Task.id = q.tasks.map Task.id) (hU : UniqueIds q) :
    UniqueIds q' := by
  unfold UniqueIds
  rw [h]
  exact hU

lemma depsInv_markCompleted {q : TaskQueue} {id : String}
    {result : Option TaskResult} {b : Bool} (h : DepsInv q) :
    DepsInv (markCompleted q id result b).1 := by
  cases hq : q.getTask id with
  | none => simpa only [markCompleted, hq] using h
  | some t0 =>
    simp only [markCompleted, hq]
    refine depsInv_updateReadyTasks (depsInv_completedExtend id ?_)
    refine depsInv_updateTask h (fun t => rfl) ?_
    intro t _ _ hs
    rcases hs with hs | hs <;> simp at hs

lemma mapIds_markCompleted (q : TaskQueue) (id : String)
    (result : Option TaskResult) (b : Bool) :
    (markCompleted q id result b).1.tasks.map Task.id = q.tasks.map Task.id := by
  cases hq : q.getTask id with
  | none => simp only [markCompleted, hq]
  | some t0 =>
    simp only [markCompleted, hq]
    rw [mapIds_updateReadyTasks]
    exact mapIds_updateTask q id _ (fun t => rfl)

lemma completed_subset_markCompleted (q : TaskQueue) (id : String)
    (result : Option TaskResult) (b : Bool) :
    ∀ x ∈ q.completed, x ∈ (markCompleted q id result b).1.completed := by
  cases hq : q.getTask id with
  | none => simp only [markCompleted, hq]; exact fun x hx => hx
  | some t0 =>
    simp only [markCompleted, hq]
    exact fun x hx => setAdd_subset hx

lemma depsInv_markRunning {q : TaskQueue} {id agentId : String}
    (hU : UniqueIds q) (hD : DepsInv q)
    (hready : statusOf q id = some TaskStatus.ready) :
    DepsInv (markRunning q id agentId).1 := by
  cases hq : q.getTask id with
  | none => simpa only [markRunning, hq] using hD
  | some t0 =>
    have ht0 : t0.status = TaskStatus.ready := by
      simp only [statusOf, hq, Option.map_some] at hready
      exact Option.some.inj hready
    simp only [markRunning, hq]
    refine depsInv_updateTask hD (fun t => rfl) ?_
    intro t ht hid _
    have heq := getTask_unique hU hq ht hid
    subst heq
    exact fun d hd => hD t ht (Or.inl ht0) d hd

lemma depsInv_markFailed {q : TaskQueue} {id error : String} {m : Nat}
    (hU : UniqueIds q) (hD : DepsInv q)
    (hrun : statusOf q id = some TaskStatus.running) :
    DepsInv (markFailed q id error m).1 := by
  cases hq : q.getTask id with
  | none => simpa only [markFailed, hq] using hD
  | some t0 =>
    have ht0 : t0.status = TaskStatus.running := by
      simp only [statusOf, hq, Option.map_some] at hrun
      exact Option.some.inj hrun
    simp only [markFailed, hq]
    split
    · refine depsInv_updateTask hD (fun t => rfl) ?_
      intro t ht hid _
      have heq := getTask_unique hU hq ht hid
      subst heq
      exact fun d hd => hD t ht (Or.inr ht0) d hd
    · refine depsInv_updateTask hD (fun t => rfl) ?_
      intro t _ _ hs
      rcases hs with hs | hs <;> simp at hs

lemma depsInv_markPaused {q : TaskQueue} {id : String} {result : Option TaskResult}
    (hD : DepsInv q) : DepsInv (markPausedAtBreakpoint q id result).1 := by
  cases hq : q.getTask id with
  | none => simpa only [markPausedAtBreakpoint, hq] using hD
  | some t0 =>
    simp only [markPausedAtBreakpoint, hq]
    refine depsInv_updateTask hD (fun t => rfl) ?_
    intro t _ _ hs
    rcases hs with hs | hs <;> simp at hs

lemma depsInv_resume {q : TaskQueue} {id : String} (hD : DepsInv q) :
    DepsInv (resumeFromBreakpoint q id).1 := by
  cases hq : q.getTask id with
  | none => simpa only [resumeFromBreakpoint, hq] using hD
  | some t0 =>
    simp only [resumeFromBreakpoint, hq]
    split
    · refine depsInv_updateReadyTasks (depsInv_completedExtend id ?_)
      refine depsInv_updateTask hD (fun t => rfl) ?_
      intro t _ _ hs
      rcases hs with hs | hs <;> simp at hs
    · exact hD

lemma mapIds_markRunning (q : TaskQueue) (id agentId : String) :
    (markRunning q id agentId).1.tasks.map Task.id = q.tasks.map Task.id := by
  cases hq : q.getTask id with
  | none => simp only [markRunning, hq]
  | some t0 =>
    simp only [markRunning, hq]
    exact mapIds_updateTask q id _ (fun t => rfl)

lemma mapIds_markFailed (q : TaskQueue) (id error : String) (m : Nat) :
    (markFailed q id error m).1.tasks.map Task.id = q.tasks.map Task.id := by
  cases hq : q.getTask id with
  | none => simp only [markFailed, hq]
  | some t0 =>
    simp only [markFailed, hq]
    split
    · exact mapIds_updateTask q id _ (fun t => rfl)
    · exact mapIds_updateTask q id _ (fun t => rfl)

lemma mapIds_markPaused (q : TaskQueue) (id : String) (result : Option TaskResult) :
    (markPausedAtBreakpoint q id result).1.tasks.map Task.id = q.tasks.map Task.id := by
  cases hq : q.getTask id with
  | none => simp only [markPausedAtBreakpoint, hq]
  | some t0 =>
    simp only [markPausedAtBreakpoint, hq]
    exact mapIds_updateTask q id _ (fun t => rfl)

lemma mapIds_resume (q : TaskQueue) (id : String) :
    (resumeFromBreakpoint q id).1.tasks.map Task.id = q.tasks.map Task.id := by
  cases hq : q.getTask id with
  | none => simp only [resumeFromBreakpoint, hq]
  | some t0 =>
    simp only [resumeFromBreakpoint, hq]
    split
    · rw [mapIds_updateReadyTasks]
      exact mapIds_updateTask q id _ (fun t => rfl)
    · rfl

lemma completed_markRunning (q : TaskQueue) (id agentId : String) :
    (markRunning q id agentId).1.completed = q.completed := by
  cases hq : q.getTask id with
  | none => simp only [markRunning, hq]
  | some t0 => simp only [markRunning, hq]; rfl

lemma completed_markFailed (q : TaskQueue) (id error : String) (m : Nat) :
    (markFailed q id error m).1.completed = q.completed := by
  cases hq : q.getTask id with
  | none => simp only [markFailed, hq]
  | some t0 =>
    simp only [markFailed, hq]
    split <;> rfl

lemma completed_markPaused (q : TaskQueue) (id : String) (result : Option TaskResult) :
    (markPausedAtBreakpoint q id result).1.completed = q.completed := by
  cases hq : q.getTask id with
  | none => simp only [markPausedAtBreakpoint, hq]
  | some t0 => simp only [markPausedAtBreakpoint, hq]; rfl

lemma completed_subset_resume (q : TaskQueue) (id : String) :
    ∀ x ∈ q.completed, x ∈ (resumeFromBreakpoint q id).1.completed := by
  cases hq : q.getTask id with
  | none => simp only [resumeFromBreakpoint, hq]; exact fun x hx => hx
  | some t0 =>
    simp only [resumeFromBreakpoint, hq]
    split
    · exact fun x hx => setAdd_subset hx
    · exact fun x hx => hx

lemma depsInv_mapSet_pending {q : TaskQueue} {t : Task}
    (hp : t.status = TaskStatus.pending) (h : DepsInv q) :
    DepsInv { q with tasks := mapSet q.tasks t } := by
  intro t' ht' hs' d hd
  unfold mapSet at ht'
  split at ht'
  · simp only [List.mem_map] at ht'
    obtain ⟨u, hu, rfl⟩ := ht'
    by_cases hc : u.id = t.id
    · simp only [hc, beq_self_eq_true, if_true] at hs' hd ⊢
      rcases hs' with hs' | hs' <;> simp [hp] at hs'
    · have hcb : (u.id == t.id) = false := by simpa using hc
      simp only [hcb, Bool.false_eq_true, if_false] at hs' hd ⊢
      exact h u hu hs' d hd
  · rw [List.mem_append] at ht'
    rcases ht' with ht' | ht'
    · exact h t' ht' hs' d hd
    · simp only [List.mem_singleton] at ht'
      subst ht'
      rcases hs' with hs' | hs' <;> simp [hp] at hs'

lemma uniqueIds_mapSet {q : TaskQueue} {t : Task} (hU : UniqueIds q) :
    UniqueIds { q with tasks := mapSet q.tasks t } := by
  unfold UniqueIds mapSet
  split
  · have heq : (q.tasks.map (fun u => if u.id == t.id then t else u)).map Task.id
        = q.tasks.map Task.id := by
      rw [List.map_map]
      refine List.map_congr_left ?_
      intro u _
      by_cases hc : u.id = t.id
      · simp [hc]
      · simp [hc]
    show ((q.tasks.map _).map Task.id).Nodup
    rw [heq]
    exact hU
  · case isFalse hany =>
    show ((q.tasks ++ [t]).map Task.id).Nodup
    rw [List.map_append]
    have hnot : t.id ∉ q.tasks.map Task.id := by
      intro hmem
      rw [List.mem_map] at hmem
      obtain ⟨u, hu, hid⟩ := hmem
      exact hany (by rw [List.any_eq_true]; exact ⟨u, hu, by simp [hid]⟩)
    rw [List.nodup_append]
    exact ⟨hU, List.nodup_singleton _, by
      intro a ha hb
      simp only [List.map_cons, List.map_nil, List.mem_singleton] at hb
      subst hb
      exact hnot ha⟩

lemma minv_addTasksStep {acc : TaskQueue × List QEvent} {input : TaskInput}
    (hU : UniqueIds acc.1) (hD : DepsInv acc.1) :
    UniqueIds (addTasksStep acc input).1 ∧ DepsInv (addTasksStep acc input).1 := by
  unfold addTasksStep
  by_cases hc : input.toTask.complete = true
  · simp only [hc, if_true]
    constructor
    · exact uniqueIds_of_same_ids (mapIds_markCompleted _ _ _ _) (uniqueIds_mapSet hU)
    · exact depsInv_markCompleted (depsInv_mapSet_pending rfl hD)
  · simp only [hc, if_false]
    exact ⟨uniqueIds_mapSet hU, depsInv_mapSet_pending rfl hD⟩

lemma minv_addTasks_fold (inputs : List TaskInput) :
    ∀ (acc : TaskQueue × List QEvent), UniqueIds acc.1 → DepsInv acc.1 →
    UniqueIds (inputs.foldl addTasksStep acc).1 ∧
      DepsInv (inputs.foldl addTasksStep acc).1 := by
  induction inputs with
  | nil => exact fun acc h1 h2 => ⟨h1, h2⟩
  | cons i is ih =>
    intro acc h1 h2
    rw [List.foldl_cons]
    obtain ⟨h1', h2'⟩ := minv_addTasksStep h1 h2
    exact ih _ h1' h2'

lemma minv_addTasks {q : TaskQueue} (inputs : List TaskInput)
    (hU : UniqueIds q) (hD : DepsInv q) :
    UniqueIds (addTasks q inputs).1 ∧ DepsInv (addTasks q inputs).1 := by
  unfold addTasks
  obtain ⟨h1, h2⟩ := minv_addTasks_fold inputs (q, []) hU hD
  exact ⟨uniqueIds_of_same_ids (mapIds_updateReadyTasks _) h1, depsInv_updateReadyTasks h2⟩

lemma minv_qstep {q q' : TaskQueue} (hs : QStep q q')
    (hU : UniqueIds q) (hD : DepsInv q) : UniqueIds q' ∧ DepsInv q' := by
  cases hs with
  | runStep id agentId h =>
    exact ⟨uniqueIds_of_same_ids (mapIds_markRunning q id agentId) hU,
      depsInv_markRunning hU hD h⟩
  | completeStep id result h =>
    exact ⟨uniqueIds_of_same_ids (mapIds_markCompleted q id result true) hU,
      depsInv_markCompleted hD⟩
  | failStep id error m h =>
    exact ⟨uniqueIds_of_same_ids (mapIds_markFailed q id error m) hU,
      depsInv_markFailed hU hD h⟩
  | pauseStep id result h =>
    exact ⟨uniqueIds_of_same_ids (mapIds_markPaused q id result) hU,
      depsInv_markPaused hD⟩
  | resumeStep id =>
    exact ⟨uniqueIds_of_same_ids (mapIds_resume q id) hU, depsInv_resume hD⟩

lemma completed_mono_qstep {q q' : TaskQueue} (hs : QStep q q') :
    ∀ x ∈ q.completed, x ∈ q'.completed := by
  cases hs with
  | runStep id agentId h =>
    intro x hx; rw [completed_markRunning]; exact hx
  | completeStep id result h =>
    exact completed_subset_markCompleted q id result true
  | failStep id error m h =>
    intro x hx; rw [completed_markFailed]; exact hx
  | pauseStep id result h =>
    intro x hx; rw [completed_markPaused]; exact hx
  | resumeStep id =>
    exact completed_subset_resume q id

lemma qreach_minv {q : TaskQueue} (h : QReach q) : UniqueIds q ∧ DepsInv q := by
  induction h with
  | load inputs =>
    exact minv_addTasks inputs (List.nodup_nil) (fun t ht => by simp at ht)
  | step q q' h hs ih =>
    exact minv_qstep hs ih.1 ih.2

/-! ### Status transitions of the guarded operations -/

lemma stepAllowed_refl (s : TaskStatus) : stepAllowed s s = true := by
  cases s <;> rfl

lemma stepAllowed_completed {s' : TaskStatus}
    (h : stepAllowed TaskStatus.completed s' = true) : s' = TaskStatus.completed := by
  cases s' <;> simp [stepAllowed] at h ⊢

lemma stepAllowed_failed {s' : TaskStatus}
    (h : stepAllowed TaskStatus.failed s' = true) : s' = TaskStatus.failed := by
  cases s' <;> simp [stepAllowed] at h ⊢

lemma getTask_id {q : TaskQueue} {id' : String} {t : Task}
    (h : q.getTask id' = some t) : t.id = id' := by
  have h' : List.find? (fun u => u.id == id') q.tasks = some t := h
  have := List.find?_some h'
  simpa using this

lemma statusOf_some {q : TaskQueue} {id' : String} {s : TaskStatus}
    (h : statusOf q id' = some s) :
    ∃ t, q.getTask id' = some t ∧ t.status = s := by
  unfold statusOf at h
  cases hq : q.getTask id' with
  | none => rw [hq] at h; simp at h
  | some t =>
    rw [hq] at h
    exact ⟨t, rfl, Option.some.inj h⟩

lemma statusOf_updateTask (q : TaskQueue) (id : String) (f : Task → Task)
    (hf : ∀ t, (f t).id = t.id) (id' : String) :
    statusOf (updateTask q id f) id' =
      (q.getTask id').map (fun t => if t.id == id then (f t).status else t.status) := by
  unfold statusOf
  rw [getTask_updateTask q id f hf id']
  cases q.getTask id' with
  | none => rfl
  | some t =>
    by_cases h : t.id = id <;> simp [h]

lemma statusOf_updateReadyTasks (q : TaskQueue) (id' : String) :
    statusOf (updateReadyTasks q).1 id' =
      (q.getTask id').map (fun t =>
        if becomesReady q.completed t then TaskStatus.ready else t.status) := by
  unfold statusOf
  rw [getTask_updateReadyTasks]
  cases q.getTask id' with
  | none => rfl
  | some t =>
    by_cases h : becomesReady q.completed t = true <;> simp [h]

lemma statusOf_chain (q1 : TaskQueue) (c : List String) (id' : String) :
    statusOf (updateReadyTasks { q1 with completed := c }).1 id' =
      (q1.getTask id').map (fun u =>
        if becomesReady c u then TaskStatus.ready else u.status) := by
  rw [statusOf_updateReadyTasks]
  rfl

lemma trans_markRunning {q : TaskQueue} {id agentId id' : String} {s s' : TaskStatus}
    (hg : statusOf q id = some TaskStatus.ready)
    (h : statusOf q id' = some s)
    (h' : statusOf (markRunning q id agentId).1 id' = some s') :
    stepAllowed s s' = true := by
  obtain ⟨t, ht, hts⟩ := statusOf_some h
  cases hq : q.getTask id with
  | none =>
    simp only [markRunning, hq] at h'
    rw [h] at h'
    rw [← Option.some.inj h', ← hts]
    exact stepAllowed_refl _
  | some t0 =>
    simp only [markRunning, hq] at h'
    rw [statusOf_updateTask q id (fun u =>
      { u with status := TaskStatus.running, agentId := some agentId,
               attempts := u.attempts + 1 }) (fun u => rfl) id', ht] at h'
    have hs' := Option.some.inj h'
    by_cases hc : t.id = id
    · have hid : id' = id := by rw [← getTask_id ht, hc]
      have hsready : s = TaskStatus.ready := by
        rw [← hid] at hg
        rw [h] at hg
        exact Option.some.inj hg
      simp only [hc, beq_self_eq_true, if_true] at hs'
      rw [hsready, ← hs']
      rfl
    · have hcb : (t.id == id) = false := by simpa using hc
      simp only [hcb, Bool.false_eq_true, if_false] at hs'
      rw [← hs', ← hts]
      exact stepAllowed_refl _

lemma trans_markPaused {q : TaskQueue} {id id' : String}
    {result : Option TaskResult} {s s' : TaskStatus}
    (hg : statusOf q id = some TaskStatus.running)
    (h : statusOf q id' = some s)
    (h' : statusOf (markPausedAtBreakpoint q id result).1 id' = some s') :
    stepAllowed s s' = true := by
  obtain ⟨t, ht, hts⟩ := statusOf_some h
  cases hq : q.getTask id with
  | none =>
    simp only [markPausedAtBreakpoint, hq] at h'
    rw [h] at h'
    rw [← Option.some.inj h', ← hts]
    exact stepAllowed_refl _
  | some t0 =>
    simp only [markPausedAtBreakpoint, hq] at h'
    rw [statusOf_updateTask q id (fun u =>
      { u with status := TaskStatus.paused_at_breakpoint,
               result := some (result.getD {}) }) (fun u => rfl) id', ht] at h'
    have hs' := Option.some.inj h'
    by_cases hc : t.id = id
    · have hid : id' = id := by rw [← getTask_id ht, hc]
      have hsrun : s = TaskStatus.running := by
        rw [← hid] at hg
        rw [h] at hg
        exact Option.some.inj hg
      simp only [hc, beq_self_eq_true, if_true] at hs'
      rw [hsrun, ← hs']
      rfl
    · have hcb : (t.id == id) = false := by simpa using hc
      simp only [hcb, Bool.false_eq_true, if_false] at hs'
      rw [← hs', ← hts]
      exact stepAllowed_refl _

lemma trans_markCompleted {q : TaskQueue} {id id' : String}
    {result : Option TaskResult} {s s' : TaskStatus}
    (hg : statusOf q id = some TaskStatus.running)
    (h : statusOf q id' = some s)
    (h' : statusOf (markCompleted q id result true).1 id' = some s') :
    stepAllowed s s' = true := by
  obtain ⟨t, ht, hts⟩ := statusOf_some h
  cases hq : q.getTask id with
  | none =>
    simp only [markCompleted, hq] at h'
    rw [h] at h'
    rw [← Option.some.inj h', ← hts]
    exact stepAllowed_refl _
  | some t0 =>
    simp only [markCompleted, hq] at h'
    rw [statusOf_chain] at h'
    rw [getTask_updateTask q id (fun u =>
      { u with status := TaskStatus.completed,
               result := some (result.getD {}) }) (fun u => rfl) id', ht] at h'
    have hs' := Option.some.inj h'
    by_cases hc : t.id = id
    · have hid : id' = id := by rw [← getTask_id ht, hc]
      have hsrun : s = TaskStatus.running := by
        rw [← hid] at hg
        rw [h] at hg
        exact Option.some.inj hg
      simp only [hc, beq_self_eq_true, if_true] at hs'
      simp [becomesReady] at hs'
      subst hs'
      rw [hsrun]
      rfl
    · have hcb : (t.id == id) = false := by simpa using hc
      simp only [hcb, Bool.false_eq_true, if_false] at hs'
      by_cases hb : becomesReady (setAdd (updateTask q id (fun u =>
        { u with status := TaskStatus.completed,
                 result := some (result.getD {}) })).completed id) t = true
      · have hp : s = TaskStatus.pending := by
          rw [← hts]
          exact becomesReady_pending hb
        simp only [hb, if_true] at hs'
        rw [hp, ← hs']
        rfl
      · have hbb : becomesReady (setAdd (updateTask q id (fun u =>
          { u with status := TaskStatus.completed,
                   result := some (result.getD {}) })).completed id) t = false := by
          simpa using hb
        simp only [hbb, Bool.false_eq_true, if_false] at hs'
        rw [← hs', ← hts]
        exact stepAllowed_refl _

lemma trans_resume {q : TaskQueue} {id id' : String} {s s' : TaskStatus}
    (h : statusOf q id' = some s)
    (h' : statusOf (resumeFromBreakpoint q id).1 id' = some s') :
    stepAllowed s s' = true := by
  obtain ⟨t, ht, hts⟩ := statusOf_some h
  cases hq : q.getTask id with
  | none =>
    simp only [resumeFromBreakpoint, hq] at h'
    rw [h] at h'
    rw [← Option.some.inj h', ← hts]
    exact stepAllowed_refl _
  | some t0 =>
    simp only [resumeFromBreakpoint, hq] at h'
    split at h'
    · case isTrue hp =>
      have hp0 : t0.status = TaskStatus.paused_at_breakpoint := by simpa using hp
      dsimp only at h'
      rw [statusOf_chain] at h'
      rw [getTask_updateTask q id (fun u =>
        { u with status := TaskStatus.completed }) (fun u => rfl) id', ht] at h'
      have hs' := Option.some.inj h'
      by_cases hc : t.id = id
      · have hid : id' = id := by rw [← getTask_id ht, hc]
        have hteq : t = t0 := by
          rw [hid] at ht
          rw [ht] at hq
          exact Option.some.inj hq
        have hspaused : s = TaskStatus.paused_at_breakpoint := by
          rw [← hts, hteq, hp0]
        simp only [hc, beq_self_eq_true, if_true] at hs'
        simp [becomesReady] at hs'
        subst hs'
        rw [hspaused]
        rfl
      · have hcb : (t.id == id) = false := by simpa using hc
        simp only [hcb, Bool.false_eq_true, if_false] at hs'
        by_cases hb : becomesReady (setAdd (updateTask q id (fun u =>
          { u with status := TaskStatus.completed })).completed id) t = true
        · have hpend : s = TaskStatus.pending := by
            rw [← hts]
            exact becomesReady_pending hb
          simp only [hb, if_true] at hs'
          rw [hpend, ← hs']
          rfl
        · have hbb : becomesReady (setAdd (updateTask q id (fun u =>
            { u with status := TaskStatus.completed })).completed id) t = false := by
            simpa using hb
          simp only [hbb, Bool.false_eq_true, if_false] at hs'
          rw [← hs', ← hts]
          exact stepAllowed_refl _
    · rw [h] at h'
      rw [← Option.some.inj h', ← hts]
      exact stepAllowed_refl _

lemma trans_markFailed {q : TaskQueue} {id error id' : String} {m : Nat}
    {s s' : TaskStatus}
    (hg : statusOf q id = some TaskStatus.running)
    (h : statusOf q id' = some s)
    (h' : statusOf (markFailed q id error m).1 id' = some s') :
    stepAllowed s s' = true := by
  obtain ⟨t, ht, hts⟩ := statusOf_some h
  cases hq : q.getTask id with
  | none =>
    simp only [markFailed, hq] at h'
    rw [h] at h'
    rw [← Option.some.inj h', ← hts]
    exact stepAllowed_refl _
  | some t0 =>
    have hsrun : id' = id → s = TaskStatus.running := by
      intro hid
      rw [← hid] at hg
      rw [h] at hg
      exact Option.some.inj hg
    simp only [markFailed, hq] at h'
    split at h'
    · dsimp only at h'
      rw [statusOf_updateTask q id (fun u =>
        { u with error := some error, status := TaskStatus.ready })
        (fun u => rfl) id', ht] at h'
      have hs' := Option.some.inj h'
      by_cases hc : t.id = id
      · have hid : id' = id := by rw [← getTask_id ht, hc]
        simp only [hc, beq_self_eq_true, if_true] at hs'
        rw [hsrun hid, ← hs']
        rfl
      · have hcb : (t.id == id) = false := by simpa using hc
        simp only [hcb, Bool.false_eq_true, if_false] at hs'
        rw [← hs', ← hts]
        exact stepAllowed_refl _
    · dsimp only at h'
      rw [statusOf_updateTask q id (fun u =>
        { u with error := some error, status := TaskStatus.failed })
        (fun u => rfl) id', ht] at h'
      have hs' := Option.some.inj h'
      by_cases hc : t.id = id
      · have hid : id' = id := by rw [← getTask_id ht, hc]
        simp only [hc, beq_self_eq_true, if_true] at hs'
        rw [hsrun hid, ← hs']
        rfl
      · have hcb : (t.id == id) = false := by simpa using hc
        simp only [hcb, Bool.false_eq_true, if_false] at hs'
        rw [← hs', ← hts]
        exact stepAllowed_refl _

lemma isSome_statusOf_markRunning (q : TaskQueue) (id agentId id' : String) :
    (statusOf (markRunning q id agentId).1 id').isSome = (statusOf q id').isSome := by
  cases hq : q.getTask id with
  | none => simp only [markRunning, hq]
  | some t0 =>
    simp only [markRunning, hq]
    rw [statusOf_updateTask q id (fun u =>
      { u with status := TaskStatus.running, agentId := some agentId,
               attempts := u.attempts + 1 }) (fun u => rfl) id']
    unfold statusOf
    cases q.getTask id' <;> simp

lemma isSome_statusOf_markPaused (q : TaskQueue) (id : String)
    (result : Option TaskResult) (id' : String) :
    (statusOf (markPausedAtBreakpoint q id result).1 id').isSome
      = (statusOf q id').isSome := by
  cases hq : q.getTask id with
  | none => simp only [markPausedAtBreakpoint, hq]
  | some t0 =>
    simp only [markPausedAtBreakpoint, hq]
    rw [statusOf_updateTask q id (fun u =>
      { u with status := TaskStatus.paused_at_breakpoint,
               result := some (result.getD {}) }) (fun u => rfl) id']
    unfold statusOf
    cases q.getTask id' <;> simp

lemma isSome_statusOf_markFailed (q : TaskQueue) (id error : String) (m : Nat)
    (id' : String) :
    (statusOf (markFailed q id error m).1 id').isSome = (statusOf q id').isSome := by
  cases hq : q.getTask id with
  | none => simp only [markFailed, hq]
  | some t0 =>
    simp only [markFailed, hq]
    split
    · rw [statusOf_updateTask q id (fun u =>
        { u with error := some error, status := TaskStatus.ready }) (fun u => rfl) id']
      unfold statusOf
      cases q.getTask id' <;> simp
    · dsimp only
      rw [statusOf_updateTask q id (fun u =>
        { u with error := some error, status := TaskStatus.failed }) (fun u => rfl) id']
      unfold statusOf
      cases q.getTask id' <;> simp

lemma isSome_statusOf_markCompleted (q : TaskQueue) (id : String)
    (result : Option TaskResult) (id' : String) :
    (statusOf (markCompleted q id result true).1 id').isSome
      = (statusOf q id').isSome := by
  cases hq : q.getTask id with
  | none => simp only [markCompleted, hq]
  | some t0 =>
    simp only [markCompleted, hq]
    rw [statusOf_chain]
    rw [getTask_updateTask q id (fun u =>
      { u with status := TaskStatus.completed,
               result := some (result.getD {}) }) (fun u => rfl) id']
    unfold statusOf
    cases q.getTask id' <;> simp

lemma isSome_statusOf_resume (q : TaskQueue) (id id' : String) :
    (statusOf (resumeFromBreakpoint q id).1 id').isSome = (statusOf q id').isSome := by
  cases hq : q.getTask id with
  | none => simp only [resumeFromBreakpoint, hq]
  | some t0 =>
    simp only [resumeFromBreakpoint, hq]
    split
    · dsimp only
      rw [statusOf_chain]
      rw [getTask_updateTask q id (fun u =>
        { u with status := TaskStatus.completed }) (fun u => rfl) id']
      unfold statusOf
      cases q.getTask id' <;> simp
    · rfl

lemma qstep_allowed {q q' : TaskQueue} (hs : QStep q q') {id : String}
    {s s' : TaskStatus} (h : statusOf q id = some s)
    (h' : statusOf q' id = some s') : stepAllowed s s' = true := by
  cases hs with
  | runStep i agentId hg => exact trans_markRunning hg h h'
  | completeStep i result hg => exact trans_markCompleted hg h h'
  | failStep i error m hg => exact trans_markFailed hg h h'
  | pauseStep i result hg => exact trans_markPaused hg h h'
  | resumeStep i => exact trans_resume h h'

lemma qstep_some {q q' : TaskQueue} (hs : QStep q q') {id : String}
    {s : TaskStatus} (h : statusOf q id = some s) :
    ∃ s', statusOf q' id = some s' := by
  have hsome : (statusOf q' id).isSome = true := by
    cases hs with
    | runStep i agentId hg =>
      rw [isSome_statusOf_markRunning, h]; rfl
    | completeStep i result hg =>
      rw [isSome_statusOf_markCompleted, h]; rfl
    | failStep i error m hg =>
      rw [isSome_statusOf_markFailed, h]; rfl
    | pauseStep i result hg =>
      rw [isSome_statusOf_markPaused, h]; rfl
    | resumeStep i =>
      rw [isSome_statusOf_resume, h]; rfl
  cases hx : statusOf q' id with
  | none => rw [hx] at hsome; simp at hsome
  | some s' => exact ⟨s', rfl⟩

lemma qstepStar_absorbing {q q' : TaskQueue}
    (hst : Relation.ReflTransGen QStep q q') (id : String) :
    (statusOf q id = some TaskStatus.completed →
      statusOf q' id = some TaskStatus.completed) ∧
    (statusOf q id = some TaskStatus.failed →
      statusOf q' id = some TaskStatus.failed) := by
  induction hst with
  | refl => exact ⟨fun h => h, fun h => h⟩
  | tail hab hbc ih =>
    constructor
    · intro h
      have hb := ih.1 h
      obtain ⟨s', hs'⟩ := qstep_some hbc hb
      have hal := qstep_allowed hbc hb hs'
      rw [stepAllowed_completed hal] at hs'
      exact hs'
    · intro h
      have hb := ih.2 h
      obtain ⟨s', hs'⟩ := qstep_some hbc hb
      have hal := qstep_allowed hbc hb hs'
      rw [stepAllowed_failed hal] at hs'
      exact hs'

/-! ### Retry budget lemmas -/

lemma getTask_markRunning (q : TaskQueue) (id agentId : String) {t : Task}
    (ht : q.getTask id = some t) :
    (markRunning q id agentId).1.getTask id =
      some { t with status := TaskStatus.running, agentId := some agentId,
                    attempts := t.attempts + 1 } := by
  simp only [markRunning, ht]
  rw [getTask_updateTask q id (fun u =>
    { u with status := TaskStatus.running, agentId := some agentId,
             attempts := u.attempts + 1 }) (fun u => rfl) id, ht]
  simp [getTask_id ht]

lemma getTask_markFailed (q : TaskQueue) (id error : String) (m : Nat) {t : Task}
    (ht : q.getTask id = some t) :
    (markFailed q id error m).1.getTask id =
      some (if t.attempts < t.retries.getD m then
              { t with error := some error, status := TaskStatus.ready }
            else
              { t with error := some error, status := TaskStatus.failed }) := by
  simp only [markFailed, ht]
  split
  · rw [getTask_updateTask q id (fun u =>
      { u with error := some error, status := TaskStatus.ready }) (fun u => rfl) id, ht]
    simp [getTask_id ht]
  · dsimp only
    rw [getTask_updateTask q id (fun u =>
      { u with error := some error, status := TaskStatus.failed }) (fun u => rfl) id, ht]
    simp [getTask_id ht]

lemma failCycle_getTask (q : TaskQueue) (id agentId error : String) (m : Nat)
    {t : Task} (ht : q.getTask id = some t) :
    ∃ t', (failCycle q id agentId error m).getTask id = some t' ∧
      t'.attempts = t.attempts + 1 ∧ t'.retries = t.retries ∧
      t'.status = (if t.attempts + 1 < t.retries.getD m then TaskStatus.ready
                   else TaskStatus.failed) := by
  unfold failCycle
  have h1 := getTask_markRunning q id agentId ht
  have h2 := getTask_markFailed (markRunning q id agentId).1 id error m h1
  dsimp only at h2
  by_cases hc : t.attempts + 1 < t.retries.getD m
  · rw [if_pos hc] at h2
    exact ⟨_, h2, rfl, rfl, by simp [hc]⟩
  · rw [if_neg hc] at h2
    exact ⟨_, h2, rfl, rfl, by simp [hc]⟩

lemma failCycles_spec (q : TaskQueue) (id agentId error : String) (m : Nat)
    {t : Task} (ht : q.getTask id = some t) (h0 : t.attempts = 0) :
    ∀ k, 1 ≤ k → ∃ t', (failCycles q id agentId error m k).getTask id = some t' ∧
      t'.attempts = k ∧ t'.retries = t.retries ∧
      t'.status = (if k < t.retries.getD m then TaskStatus.ready
                   else TaskStatus.failed) := by
  intro k
  induction k with
  | zero => intro h; simp at h
  | succ k ih =>
    intro _
    by_cases hk : k = 0
    · subst hk
      show ∃ t', (failCycle (failCycles q id agentId error m 0) id agentId error m).getTask id
          = some t' ∧ _
      obtain ⟨t', h1, h2, h3, h4⟩ := failCycle_getTask q id agentId error m ht
      exact ⟨t', h1, by rw [h2, h0], by rw [h3], by rw [h4, h0]⟩
    · obtain ⟨u, hu1, hu2, hu3, hu4⟩ := ih (Nat.one_le_iff_ne_zero.mpr hk)
      obtain ⟨t', h1, h2, h3, h4⟩ :=
        failCycle_getTask (failCycles q id agentId error m k) id agentId error m hu1
      refine ⟨t', h1, by rw [h2, hu2], by rw [h3, hu3], ?_⟩
      rw [h4, hu2, hu3]

/-! ### Event emission lemmas -/

lemma allComplete_checkAllComplete {q : TaskQueue}
    (h : QEvent.allComplete ∈ q.checkAllComplete) :
    q.allDone = true ∧ q.anyPaused = false := by
  unfold TaskQueue.checkAllComplete at h
  split at h
  · case isTrue hcond =>
    rw [Bool.and_eq_true, Bool.not_eq_true'] at hcond
    exact hcond
  · simp at h

lemma allComplete_not_mem_updateReady (q : TaskQueue) :
    QEvent.allComplete ∉ (updateReadyTasks q).2 := by
  intro h
  unfold updateReadyTasks at h
  simp only [List.mem_map] at h
  obtain ⟨t, _, ht⟩ := h
  simp at ht

lemma allComplete_not_mem_markCompleted_false (q : TaskQueue) (id : String)
    (result : Option TaskResult) :
    QEvent.allComplete ∉ (markCompleted q id result false).2 := by
  intro h
  cases hq : q.getTask id with
  | none => simp only [markCompleted, hq] at h; simp at h
  | some t0 =>
    simp only [markCompleted, hq] at h
    rw [List.mem_append, List.mem_cons] at h
    rcases h with (h | h) | h
    · simp at h
    · exact allComplete_not_mem_updateReady _ h
    · simp at h

lemma allComplete_markCompleted {q : TaskQueue} {id : String}
    {result : Option TaskResult} {b : Bool}
    (h : QEvent.allComplete ∈ (markCompleted q id result b).2) :
    (markCompleted q id result b).1.allDone = true ∧
      (markCompleted q id result b).1.anyPaused = false := by
  cases hq : q.getTask id with
  | none => simp only [markCompleted, hq] at h; simp at h
  | some t0 =>
    cases b with
    | false => exact absurd h (allComplete_not_mem_markCompleted_false q id result)
    | true =>
      simp only [markCompleted, hq] at h ⊢
      rw [List.mem_append, List.mem_cons] at h
      rcases h with (h | h) | h
      · simp at h
      · exact absurd h (allComplete_not_mem_updateReady _)
      · simp only [if_true] at h
        exact allComplete_checkAllComplete h

lemma allComplete_markFailed {q : TaskQueue} {id error : String} {m : Nat}
    (h : QEvent.allComplete ∈ (markFailed q id error m).2) :
    (markFailed q id error m).1.allDone = true ∧
      (markFailed q id error m).1.anyPaused = false := by
  cases hq : q.getTask id with
  | none => simp only [markFailed, hq] at h; simp at h
  | some t0 =>
    simp only [markFailed, hq] at h ⊢
    by_cases hc : t0.attempts < t0.retries.getD m
    · rw [if_pos hc] at h
      simp at h
    · rw [if_neg hc] at h ⊢
      dsimp only at h ⊢
      rw [List.mem_cons] at h
      rcases h with h | h
      · simp at h
      · exact allComplete_checkAllComplete h

lemma allComplete_resume {q : TaskQueue} {id : String}
    (h : QEvent.allComplete ∈ (resumeFromBreakpoint q id).2) :
    (resumeFromBreakpoint q id).1.allDone = true ∧
      (resumeFromBreakpoint q id).1.anyPaused = false := by
  cases hq : q.getTask id with
  | none => simp only [resumeFromBreakpoint, hq] at h; simp at h
  | some t0 =>
    simp only [resumeFromBreakpoint, hq] at h ⊢
    by_cases hp : (t0.status == TaskStatus.paused_at_breakpoint) = true
    · rw [if_pos hp] at h ⊢
      dsimp only at h ⊢
      rw [List.mem_append, List.mem_cons] at h
      rcases h with (h | h) | h
      · simp at h
      · exact absurd h (allComplete_not_mem_updateReady _)
      · exact allComplete_checkAllComplete h
    · rw [if_neg hp] at h
      simp at h

lemma allComplete_not_mem_fold (inputs : List TaskInput) :
    ∀ acc : TaskQueue × List QEvent, QEvent.allComplete ∉ acc.2 →
    QEvent.allComplete ∉ (inputs.foldl addTasksStep acc).2 := by
  induction inputs with
  | nil => exact fun acc h => h
  | cons i is ih =>
    intro acc h
    rw [List.foldl_cons]
    refine ih _ ?_
    unfold addTasksStep
    by_cases hc : i.toTask.complete = true
    · simp only [hc, if_true]
      intro hmem
      rw [List.mem_append] at hmem
      rcases hmem with hmem | hmem
      · exact h hmem
      · exact allComplete_not_mem_markCompleted_false _ _ _ hmem
    · simp only [hc, if_false]
      exact h

lemma allComplete_not_mem_addTasks (q : TaskQueue) (inputs : List TaskInput) :
    QEvent.allComplete ∉ (addTasks q inputs).2 := by
  intro h
  unfold addTasks at h
  rw [List.mem_append] at h
  rcases h with h | h
  · exact allComplete_not_mem_fold inputs (q, []) (by simp) h
  · exact allComplete_not_mem_updateReady _ h

lemma allComplete_not_mem_addTask (q : TaskQueue) (input : TaskInput) :
    QEvent.allComplete ∉ (addTask q input).2 := by
  intro h
  unfold addTask at h
  by_cases hc : input.toTask.complete = true
  · rw [if_pos hc] at h
    exact allComplete_not_mem_markCompleted_false _ _ _ h
  · rw [if_neg hc] at h
    exact allComplete_not_mem_updateReady _ h

lemma applyQOp_allComplete {q : TaskQueue} {op : QOp}
    (h : QEvent.allComplete ∈ (applyQOp q op).2) :
    (applyQOp q op).1.allDone = true ∧ (applyQOp q op).1.anyPaused = false := by
  cases op with
  | addTaskOp input => exact absurd h (allComplete_not_mem_addTask q input)
  | addTasksOp inputs => exact absurd h (allComplete_not_mem_addTasks q inputs)
  | markRunningOp id agentId =>
    exfalso
    cases hq : q.getTask id with
    | none => simp only [applyQOp, markRunning, hq] at h; simp at h
    | some t0 => simp only [applyQOp, markRunning, hq] at h; simp at h
  | markCompletedOp id result b => exact allComplete_markCompleted h
  | markFailedOp id error m => exact allComplete_markFailed h
  | markPausedOp id result =>
    exfalso
    cases hq : q.getTask id with
    | none => simp only [applyQOp, markPausedAtBreakpoint, hq] at h; simp at h
    | some t0 => simp only [applyQOp, markPausedAtBreakpoint, hq] at h; simp at h
  | resumeOp id => exact allComplete_resume h

lemma statusOf_markPaused_other (q : TaskQueue) (id : String)
    (result : Option TaskResult) (id' : String) (hne : id' ≠ id) :
    statusOf (markPausedAtBreakpoint q id result).1 id' = statusOf q id' := by
  cases hq : q.getTask id with
  | none => simp only [markPausedAtBreakpoint, hq]
  | some t0 =>
    simp only [markPausedAtBreakpoint, hq]
    rw [statusOf_updateTask q id (fun u =>
      { u with status := TaskStatus.paused_at_breakpoint,
               result := some (result.getD {}) }) (fun u => rfl) id']
    unfold statusOf
    cases hx : q.getTask id' with
    | none => rfl
    | some t =>
      have hf : (t.id == id) = false := by
        simp only [beq_eq_false_iff_ne]
        rw [getTask_id hx]
        exact hne
      simp [hf]
      intro hcc
      exact absurd hcc (by simpa using hf)

lemma events_markPaused (q : TaskQueue) (id : String) (result : Option TaskResult) :
    (∀ i, QEvent.taskReady i ∉ (markPausedAtBreakpoint q id result).2) ∧
    QEvent.allComplete ∉ (markPausedAtBreakpoint q id result).2 := by
  cases hq : q.getTask id with
  | none => simp [markPausedAtBreakpoint, hq]
  | some t0 => simp [markPausedAtBreakpoint, hq]

/-! ### Orchestrator lemmas -/

lemma activeAgents_applyQueueEvents (o : Orchestrator) (evs : List QEvent) :
    (applyQueueEvents o evs).activeAgents = o.activeAgents := by
  unfold applyQueueEvents
  split <;> rfl

lemma maxC_applyQueueEvents (o : Orchestrator) (evs : List QEvent) :
    (applyQueueEvents o evs).maxConcurrent = o.maxConcurrent := by
  unfold applyQueueEvents
  split <;> rfl

lemma queue_applyQueueEvents (o : Orchestrator) (evs : List QEvent) :
    (applyQueueEvents o evs).queue = o.queue := by
  unfold applyQueueEvents
  split <;> rfl

lemma length_removeAgent (l : List (String × String)) (agentId : String) :
    (removeAgent l agentId).length ≤ l.length :=
  List.length_filter_le _ _

lemma spawnAgentStep_length (ok : String → Bool) (o : Orchestrator) (task : Task) :
    (spawnAgentStep ok o task).activeAgents.length ≤ o.activeAgents.length + 1 := by
  unfold spawnAgentStep
  split
  · simp
  · rw [activeAgents_applyQueueEvents]
    exact Nat.le_succ _

lemma spawnAgentStep_maxC (ok : String → Bool) (o : Orchestrator) (task : Task) :
    (spawnAgentStep ok o task).maxConcurrent = o.maxConcurrent := by
  unfold spawnAgentStep
  split
  · rfl
  · rw [maxC_applyQueueEvents]

lemma spawnLoop_length (ok : String → Bool) (ts : List Task) :
    ∀ o : Orchestrator, (ts.foldl (spawnAgentStep ok) o).activeAgents.length ≤
      o.activeAgents.length + ts.length := by
  induction ts with
  | nil => intro o; simp
  | cons t ts ih =>
    intro o
    rw [List.foldl_cons]
    have h1 := ih (spawnAgentStep ok o t)
    have h2 := spawnAgentStep_length ok o t
    simp only [List.length_cons]
    omega

lemma spawnLoop_maxC (ok : String → Bool) (ts : List Task) :
    ∀ o : Orchestrator, (ts.foldl (spawnAgentStep ok) o).maxConcurrent
      = o.maxConcurrent := by
  induction ts with
  | nil => intro o; rfl
  | cons t ts ih =>
    intro o
    rw [List.foldl_cons, ih, spawnAgentStep_maxC]

lemma trySpawnAgents_maxC (ok : String → Bool) (o : Orchestrator) :
    (trySpawnAgents ok o).maxConcurrent = o.maxConcurrent := by
  unfold trySpawnAgents
  cases hrun : o.isRunning with
  | false => simp
  | true =>
    simp only [hrun, Bool.not_true]
    by_cases hs : ((o.maxConcurrent : Int) - (o.activeAgents.length : Int)) ≤ 0
    · simp [hs]
    · simp only [Bool.false_eq_true, if_false, hs, if_false]
      exact spawnLoop_maxC ok _ o

lemma trySpawnAgents_bound (ok : String → Bool) (o : Orchestrator)
    (h : o.activeAgents.length ≤ o.maxConcurrent) :
    (trySpawnAgents ok o).activeAgents.length ≤ o.maxConcurrent := by
  unfold trySpawnAgents
  cases hrun : o.isRunning with
  | false => simpa using h
  | true =>
    simp only [hrun, Bool.not_true]
    by_cases hs : ((o.maxConcurrent : Int) - (o.activeAgents.length : Int)) ≤ 0
    · simpa [hs] using h
    · simp only [Bool.false_eq_true, if_false, hs, if_false]
      have h1 := spawnLoop_length ok
        (o.queue.getReadyTasks.take
          ((o.maxConcurrent : Int) - (o.activeAgents.length : Int)).toNat) o
      have h2 : (o.queue.getReadyTasks.take
          ((o.maxConcurrent : Int) - (o.activeAgents.length : Int)).toNat).length ≤
          ((o.maxConcurrent : Int) - (o.activeAgents.length : Int)).toNat := by
        rw [List.length_take]
        exact inf_le_left
      omega

lemma ostep_ceiling {o o' : Orchestrator} (hs : OStep o o')
    (h : o.activeAgents.length ≤ o.maxConcurrent) :
    o'.activeAgents.length ≤ o'.maxConcurrent := by
  cases hs with
  | startStep ok =>
    unfold startOrchestrator
    split
    · exact h
    · rw [trySpawnAgents_maxC]
      exact trySpawnAgents_bound ok { o with isRunning := true } h
  | spawnStep ok =>
    rw [trySpawnAgents_maxC]
    exact trySpawnAgents_bound ok o h
  | completeStep ok _ agentId result =>
    unfold handleAgentComplete
    cases lookupAgent o agentId with
    | none => exact h
    | some taskId =>
      dsimp only
      cases o.queue.getTask taskId with
      | none => exact h
      | some task =>
        dsimp only
        rw [trySpawnAgents_maxC]
        refine trySpawnAgents_bound ok _ ?_
        split <;>
          · rw [activeAgents_applyQueueEvents, maxC_applyQueueEvents]
            exact le_trans (length_removeAgent _ _) h
  | failStep ok _ agentId error =>
    unfold handleAgentFailed
    cases lookupAgent o agentId with
    | none => exact h
    | some taskId =>
      dsimp only
      rw [trySpawnAgents_maxC]
      refine trySpawnAgents_bound ok _ ?_
      rw [activeAgents_applyQueueEvents, maxC_applyQueueEvents]
      exact le_trans (length_removeAgent _ _) h
  | resumeStep ok _ taskId =>
    unfold resolveBreakpointContinue
    rw [trySpawnAgents_maxC]
    refine trySpawnAgents_bound ok _ ?_
    rw [activeAgents_applyQueueEvents, maxC_applyQueueEvents]
    exact h
  | stopStep => exact h

lemma trySpawnAgents_not_running (ok : String → Bool) (o : Orchestrator)
    (h : o.isRunning = false) : trySpawnAgents ok o = o := by
  unfold trySpawnAgents
  rw [h]
  rfl

lemma markFailed_status_iff (q : TaskQueue) (id error : String) (m : Nat)
    {t : Task} (ht : q.getTask id = some t) :
    (statusOf (markFailed q id error m).1 id = some TaskStatus.ready ↔
      t.attempts < t.retries.getD m) ∧
    (statusOf (markFailed q id error m).1 id = some TaskStatus.failed ↔
      ¬ t.attempts < t.retries.getD m) := by
  have h2 := getTask_markFailed q id error m ht
  constructor
  · constructor
    · intro hst
      by_contra hc
      rw [if_neg hc] at h2
      unfold statusOf at hst
      rw [h2] at hst
      simp at hst
    · intro hc
      rw [if_pos hc] at h2
      unfold statusOf
      rw [h2]
      rfl
  · constructor
    · intro hst hc
      rw [if_pos hc] at h2
      unfold statusOf at hst
      rw [h2] at hst
      simp at hst
    · intro hc
      rw [if_neg hc] at h2
      unfold statusOf
      rw [h2]
      rfl

lemma getTask_markFailed_other (q : TaskQueue) (x e : String) (m : Nat)
    (id : String) (hne : id ≠ x) :
    (markFailed q x e m).1.getTask id = q.getTask id := by
  cases hq : q.getTask x with
  | none => simp only [markFailed, hq]
  | some t0 =>
    simp only [markFailed, hq]
    split
    · rw [getTask_updateTask q x (fun u =>
        { u with error := some e, status := TaskStatus.ready }) (fun u => rfl) id]
      cases hx : q.getTask id with
      | none => rfl
      | some t =>
        have hf : (t.id == x) = false := by
          simp only [beq_eq_false_iff_ne]
          rw [getTask_id hx]
          exact hne
        simp [hf]
        intro hcc
        exact absurd hcc (by simpa using hf)
    · dsimp only
      rw [getTask_updateTask q x (fun u =>
        { u with error := some e, status := TaskStatus.failed }) (fun u => rfl) id]
      cases hx : q.getTask id with
      | none => rfl
      | some t =>
        have hf : (t.id == x) = false := by
          simp only [beq_eq_false_iff_ne]
          rw [getTask_id hx]
          exact hne
        simp [hf]
        intro hcc
        exact absurd hcc (by simpa using hf)

lemma spawnAgentStep_failing_preserves {ok : String → Bool}
    (hok : ∀ x, ok x = false) (o : Orchestrator) (task : Task) (id : String)
    (a : Nat) (r : Option Nat) (hbudget : a < r.getD 2)
    (hP : ∃ t, o.queue.getTask id = some t ∧ t.status = TaskStatus.ready ∧
      t.attempts = a ∧ t.retries = r) :
    ∃ t, (spawnAgentStep ok o task).queue.getTask id = some t ∧
      t.status = TaskStatus.ready ∧ t.attempts = a ∧ t.retries = r := by
  obtain ⟨t, ht, hs, ha, hr⟩ := hP
  unfold spawnAgentStep
  rw [hok task.id]
  simp only [Bool.false_eq_true, if_false]
  rw [queue_applyQueueEvents]
  by_cases hid : id = task.id
  · subst hid
    have h2 := getTask_markFailed o.queue task.id "Failed to create agent" 2 ht
    rw [if_pos (by rw [ha, hr]; exact hbudget)] at h2
    exact ⟨_, h2, rfl, ha, hr⟩
  · rw [getTask_markFailed_other o.queue task.id "Failed to create agent" 2 id hid]
    exact ⟨t, ht, hs, ha, hr⟩

lemma spawnLoop_failing_preserves {ok : String → Bool}
    (hok : ∀ x, ok x = false) (ts : List Task) (id : String)
    (a : Nat) (r : Option Nat) (hbudget : a < r.getD 2) :
    ∀ o : Orchestrator,
      (∃ t, o.queue.getTask id = some t ∧ t.status = TaskStatus.ready ∧
        t.attempts = a ∧ t.retries = r) →
      ∃ t, (ts.foldl (spawnAgentStep ok) o).queue.getTask id = some t ∧
        t.status = TaskStatus.ready ∧ t.attempts = a ∧ t.retries = r := by
  induction ts with
  | nil => exact fun o h => h
  | cons u ts ih =>
    intro o h
    rw [List.foldl_cons]
    exact ih _ (spawnAgentStep_failing_preserves hok o u id a r hbudget h)

lemma trySpawnAgents_failing_preserves {ok : String → Bool}
    (hok : ∀ x, ok x = false) (o : Orchestrator) (id : String)
    (a : Nat) (r : Option Nat) (hbudget : a < r.getD 2)
    (hP : ∃ t, o.queue.getTask id = some t ∧ t.status = TaskStatus.ready ∧
      t.attempts = a ∧ t.retries = r) :
    ∃ t, (trySpawnAgents ok o).queue.getTask id = some t ∧
      t.status = TaskStatus.ready ∧ t.attempts = a ∧ t.retries = r := by
  unfold trySpawnAgents
  cases hrun : o.isRunning with
  | false => simpa using hP
  | true =>
    simp only [hrun, Bool.not_true]
    by_cases hs : ((o.maxConcurrent : Int) - (o.activeAgents.length : Int)) ≤ 0
    · simpa [hs] using hP
    · simp only [Bool.false_eq_true, if_false, hs, if_false]
      exact spawnLoop_failing_preserves hok _ id a r hbudget o hP

lemma spawnAttempts_failing_preserves {ok : String → Bool}
    (hok : ∀ x, ok x = false) (o : Orchestrator) (id : String)
    (a : Nat) (r : Option Nat) (hbudget : a < r.getD 2)
    (hP : ∃ t, o.queue.getTask id = some t ∧ t.status = TaskStatus.ready ∧
      t.attempts = a ∧ t.retries = r) :
    ∀ k, ∃ t, (spawnAttempts ok o k).queue.getTask id = some t ∧
      t.status = TaskStatus.ready ∧ t.attempts = a ∧ t.retries = r := by
  intro k
  induction k with
  | zero => exact hP
  | succ k ih => exact trySpawnAgents_failing_preserves hok _ id a r hbudget ih

/-! ### Dependency-validation lemmas -/

lemma setAdd_not_mem {l : List String} {x : String} (h : x ∉ l) :
    setAdd l x = l ++ [x] := by
  simp [setAdd, h]

lemma taskMapGet_ne_none {ts : List TaskInput} {t : TaskInput} (h : t ∈ ts) :
    taskMapGet ts t.id ≠ none := by
  intro hn
  have hall := List.find?_eq_none.mp hn t (List.mem_reverse.mpr h)
  simp at hall

lemma dpath_snoc {ts : List TaskInput} {a b c : String}
    (p : DepPath ts a b) (h : c ∈ depsOf ts b) : DepPath ts a c := by
  induction p with
  | single h1 => exact DepPath.cons h1 (DepPath.single h)
  | cons h1 _ ih => exact DepPath.cons h1 (ih h)

lemma dacc_no_cycle {ts : List TaskInput} {u : String}
    (hacc : DAcc ts u) : ¬ DepPath ts u u := by
  induction hacc with
  | mk u h ih =>
    intro p
    cases p with
    | single h1 => exact ih u h1 (DepPath.single h1)
    | cons h1 p1 => exact ih _ h1 (dpath_snoc p1 h1)

lemma dfsDeps_cons_visited (visit : DfsState → String → Option (Bool × DfsState))
    (s : DfsState) (d : String) (rest : List String)
    (hd : s.visited.contains d = true) :
    dfsDeps visit s (d :: rest) =
      (if s.recursionStack.contains d then some (true, s) else dfsDeps visit s rest) := by
  have hd2 : d ∈ s.visited := by simpa using hd
  simp [dfsDeps, hd2]

lemma dfsDeps_cons_new (visit : DfsState → String → Option (Bool × DfsState))
    (s : DfsState) (d : String) (rest : List String)
    (hd : s.visited.contains d = false) :
    dfsDeps visit s (d :: rest) =
      match visit s d with
      | none => none
      | some (r, s1) =>
        if r then some (true, s1)
        else if s1.recursionStack.contains d then some (true, s1)
        else dfsDeps visit s1 rest := by
  simp only [dfsDeps, hd, Bool.false_eq_true, if_false]

lemma dfsVisit_succ (ts : List TaskInput) (fuel : Nat) (s : DfsState) (taskId : String) :
    dfsVisit ts (fuel + 1) s taskId =
      match taskMapGet ts taskId with
      | none => some (false, { visited := setAdd s.visited taskId
                               recursionStack := setAdd s.recursionStack taskId })
      | some t =>
        match dfsDeps (fun s2 d => dfsVisit ts fuel s2 d)
            { visited := setAdd s.visited taskId
              recursionStack := setAdd s.recursionStack taskId } t.dependsOn with
        | none => none
        | some (true, s2) => some (true, s2)
        | some (false, s2) =>
          some (false, { s2 with recursionStack := s2.recursionStack.erase taskId }) := rfl

lemma dfsDeps_false_post (ts : List TaskInput)
    (visit : DfsState → String → Option (Bool × DfsState))
    (hv : ∀ s u s1, DfsInv ts s → u ∉ s.visited →
      visit s u = some (false, s1) → VPost ts s u s1) :
    ∀ (ds : List String) (s s1 : DfsState), DfsInv ts s →
      dfsDeps visit s ds = some (false, s1) → DPost ts s ds s1 := by
  intro ds
  induction ds with
  | nil =>
    intro s s1 hi h
    have hs : s = s1 := by simpa [dfsDeps] using h
    subst hs
    exact ⟨hi, fun w hw => hw, fun w hw => Or.inl hw,
      fun d hd => absurd hd (List.not_mem_nil d)⟩
  | cons d rest ih =>
    intro s s1 hi h
    by_cases hd : s.visited.contains d = true
    · rw [dfsDeps_cons_visited visit s d rest hd] at h
      by_cases hstk : s.recursionStack.contains d = true
      · rw [if_pos hstk] at h
        exact absurd h (by simp)
      · rw [if_neg hstk] at h
        obtain ⟨hi1, hvm, hsu, hdall⟩ := ih s s1 hi h
        refine ⟨hi1, hvm, hsu, ?_⟩
        intro x hx
        rcases List.mem_cons.mp hx with hEq | hMem
        · subst hEq
          exact hi.2.2 x (by simpa using hd) (by simpa using hstk)
        · exact hdall x hMem
    · have hd2 : s.visited.contains d = false := by simpa using hd
      rw [dfsDeps_cons_new visit s d rest hd2] at h
      cases hvd : visit s d with
      | none => rw [hvd] at h; exact absurd h (by simp)
      | some p =>
        obtain ⟨r, sA⟩ := p
        rw [hvd] at h
        dsimp only at h
        cases r with
        | true => simp at h
        | false =>
          rw [if_neg (by simp)] at h
          have hdnv : d ∉ s.visited := by simpa using hd2
          obtain ⟨hiA, hvmA, hdvA, hsuA, _, hdacc⟩ := hv s d sA hi hdnv hvd
          by_cases hstk : sA.recursionStack.contains d = true
          · rw [if_pos hstk] at h
            exact absurd h (by simp)
          · rw [if_neg hstk] at h
            obtain ⟨hi1, hvm1, hsu1, hdall⟩ := ih sA s1 hiA h
            refine ⟨hi1, fun w hw => hvm1 w (hvmA w hw), ?_, ?_⟩
            · intro w hw
              rcases hsu1 w hw with h0 | h0
              · rcases hsuA w h0 with h1 | h1
                · exact Or.inl h1
                · exact Or.inr h1
              · exact Or.inr h0
            · intro x hx
              rcases List.mem_cons.mp hx with hEq | hMem
              · subst hEq; exact hdacc
              · exact hdall x hMem

lemma dfsVisit_false_post (ts : List TaskInput) :
    ∀ (fuel : Nat) (s : DfsState) (u : String) (s1 : DfsState),
      DfsInv ts s → u ∉ s.visited →
      dfsVisit ts fuel s u = some (false, s1) → VPost ts s u s1 := by
  intro fuel
  induction fuel with
  | zero =>
    intro s u s1 _ _ h
    exact absurd h (by simp [dfsVisit])
  | succ fuel ih =>
    intro s u s1 hi hu h
    have hustk : u ∉ s.recursionStack := fun hw => hu (hi.1 u hw)
    have hva : setAdd s.visited u = s.visited ++ [u] := setAdd_not_mem hu
    have hsa : setAdd s.recursionStack u = s.recursionStack ++ [u] := setAdd_not_mem hustk
    have hiA : DfsInv ts { visited := setAdd s.visited u
                           recursionStack := setAdd s.recursionStack u } := by
      rw [hva, hsa]
      refine ⟨?_, ?_, ?_⟩
      · intro w hw
        rcases List.mem_append.mp hw with h0 | h0
        · exact List.mem_append.mpr (Or.inl (hi.1 w h0))
        · exact List.mem_append.mpr (Or.inr h0)
      · refine List.Nodup.append hi.2.1 (List.nodup_singleton u) ?_
        intro a ha hb
        rw [List.mem_singleton.mp hb] at ha
        exact hustk ha
      · intro w hw hns
        rcases List.mem_append.mp hw with h0 | h0
        · exact hi.2.2 w h0 (fun hc => hns (List.mem_append.mpr (Or.inl hc)))
        · exact absurd (List.mem_append.mpr (Or.inr h0)) hns
    rw [dfsVisit_succ ts fuel s u] at h
    cases hmg : taskMapGet ts u with
    | none =>
      rw [hmg] at h
      dsimp only at h
      simp only [Option.some.injEq, Prod.mk.injEq, true_and] at h
      subst h
      refine ⟨hiA, ?_, ?_, ?_, ?_, ?_⟩
      · intro w hw; exact setAdd_subset hw
      · rw [hva] at *
        exact List.mem_append.mpr (Or.inr (List.mem_singleton.mpr rfl))
      · intro w hw
        rw [hsa] at hw
        rcases List.mem_append.mp hw with h0 | h0
        · exact Or.inl h0
        · rw [List.mem_singleton.mp h0]
          exact Or.inr hmg
      · intro _
        rw [hsa]
        exact List.mem_append.mpr (Or.inr (List.mem_singleton.mpr rfl))
      · exact DAcc.mk u (fun d hd => absurd hd (by simp [depsOf, hmg]))
    | some t =>
      rw [hmg] at h
      dsimp only at h
      cases hdd : dfsDeps (fun s2 d => dfsVisit ts fuel s2 d)
          { visited := setAdd s.visited u
            recursionStack := setAdd s.recursionStack u } t.dependsOn with
      | none => rw [hdd] at h; exact absurd h (by simp)
      | some p =>
        obtain ⟨r, s2⟩ := p
        rw [hdd] at h
        cases r with
        | true => simp at h
        | false =>
          dsimp only at h
          simp only [Option.some.injEq, Prod.mk.injEq, true_and] at h
          subst h
          obtain ⟨hi2, hvm2, hsu2, hdall⟩ :=
            dfsDeps_false_post ts (fun s2 d => dfsVisit ts fuel s2 d)
              (fun s3 w s4 => ih s3 w s4) t.dependsOn _ s2 hiA hdd
          have hnd2 : s2.recursionStack.Nodup := hi2.2.1
          have hdaccu : DAcc ts u :=
            DAcc.mk u (fun d hd => hdall d (by simpa [depsOf, hmg] using hd))
          refine ⟨⟨?_, ?_, ?_⟩, ?_, ?_, ?_, ?_, hdaccu⟩
          · intro w hw
            exact hi2.1 w (List.mem_of_mem_erase hw)
          · exact List.Nodup.erase u hnd2
          · intro w hw hns
            by_cases hwu : w = u
            · subst hwu; exact hdaccu
            · refine hi2.2.2 w hw (fun hc => hns ?_)
              exact (List.Nodup.mem_erase_iff hnd2).mpr ⟨hwu, hc⟩
          · intro w hw
            exact hvm2 w (setAdd_subset hw)
          · refine hvm2 u ?_
            rw [hva]
            exact List.mem_append.mpr (Or.inr (List.mem_singleton.mpr rfl))
          · intro w hw
            have hw2 := (List.Nodup.mem_erase_iff hnd2).mp hw
            rcases hsu2 w hw2.2 with h0 | h0
            · rw [hsa] at h0
              rcases List.mem_append.mp h0 with h1 | h1
              · exact Or.inl h1
              · exact absurd (List.mem_singleton.mp h1) hw2.1
            · exact Or.inr h0
          · intro hnone
            rw [hmg] at hnone
            cases hnone

lemma hasCycleLoop_false (ts : List TaskInput) (fuel : Nat) :
    ∀ (pending : List TaskInput) (s : DfsState), LoopInv ts s →
      (∀ t ∈ pending, taskMapGet ts t.id ≠ none) →
      hasCycleLoop (dfsVisit ts fuel) s pending = some false →
      ∀ t ∈ pending, DAcc ts t.id := by
  intro pending
  induction pending with
  | nil =>
    intro s _ _ _ t ht
    exact absurd ht (List.not_mem_nil t)
  | cons t0 rest ih =>
    intro s hL hsub h t ht
    by_cases hv : s.visited.contains t0.id = true
    · rw [hasCycleLoop, if_pos hv] at h
      rcases List.mem_cons.mp ht with hEq | hMem
      · subst hEq
        have hns : t.id ∉ s.recursionStack :=
          fun hc => hsub t (List.mem_cons_self t rest) (hL.2 t.id hc)
        exact hL.1.2.2 t.id (by simpa using hv) hns
      · exact ih s hL (fun x hx => hsub x (List.mem_cons_of_mem t0 hx)) h t hMem
    · rw [hasCycleLoop, if_neg hv] at h
      cases hdv : dfsVisit ts fuel s t0.id with
      | none => rw [hdv] at h; exact absurd h (by simp)
      | some p =>
        obtain ⟨r, sA⟩ := p
        rw [hdv] at h
        cases r with
        | true => simp at h
        | false =>
          dsimp only at h
          have hnv : t0.id ∉ s.visited := by simpa using hv
          obtain ⟨hiA, _, _, hsuA, _, hdacc⟩ :=
            dfsVisit_false_post ts fuel s t0.id sA hL.1 hnv hdv
          have hLA : LoopInv ts sA := by
            refine ⟨hiA, fun w hw => ?_⟩
            rcases hsuA w hw with h0 | h0
            · exact hL.2 w h0
            · exact h0
          rcases List.mem_cons.mp ht with hEq | hMem
          · subst hEq; exact hdacc
          · exact ih sA hLA (fun x hx => hsub x (List.mem_cons_of_mem t0 hx)) h t hMem

lemma hasCycle_false_dacc {ts : List TaskInput} (h : hasCycle ts = false) :
    ∀ t ∈ ts, DAcc ts t.id := by
  unfold hasCycle at h
  cases hloop : hasCycleLoop (dfsVisit ts ((allDfsIds ts).length + 1)) {} ts with
  | none => rw [hloop] at h; cases h
  | some b =>
    rw [hloop] at h
    dsimp only at h
    subst h
    refine hasCycleLoop_false ts ((allDfsIds ts).length + 1) ts {} ?_
      (fun t ht => taskMapGet_ne_none ht) hloop
    exact ⟨⟨fun w hw => absurd hw (List.not_mem_nil w), List.nodup_nil,
      fun w hw => absurd hw (List.not_mem_nil w)⟩,
      fun w hw => absurd hw (List.not_mem_nil w)⟩

lemma cyclicDeps_hasCycle {ts : List TaskInput} (h : CyclicDeps ts) :
    hasCycle ts = true := by
  by_contra hfalse
  have hf : hasCycle ts = false := by
    cases hhc : hasCycle ts with
    | true => exact absurd hhc hfalse
    | false => rfl
  obtain ⟨u, p⟩ := h
  have hdep : ∃ d, d ∈ depsOf ts u := by
    cases p with
    | single h1 => exact ⟨_, h1⟩
    | cons h1 _ => exact ⟨_, h1⟩
  obtain ⟨d, hd⟩ := hdep
  have hknown : ∃ t, taskMapGet ts u = some t := by
    cases hmg : taskMapGet ts u with
    | none => simp [depsOf, hmg] at hd
    | some t => exact ⟨t, rfl⟩
  obtain ⟨t, hmg⟩ := hknown
  have h1 : t ∈ ts := List.mem_reverse.mp (List.mem_of_find?_eq_some hmg)
  have h2 : t.id = u := by simpa using List.find?_some hmg
  have hacc := hasCycle_false_dacc hf t h1
  rw [h2] at hacc
  exact dacc_no_cycle hacc p

lemma mem_dependencyErrors_unknown {ts : List TaskInput} {t : TaskInput} {d : String}
    (ht : t ∈ ts) (hd : d ∈ t.dependsOn) (hu : d ∉ ts.map TaskInput.id) :
    unknownDepMsg t.id d ∈ dependencyErrors ts := by
  unfold dependencyErrors
  refine List.mem_append.mpr (Or.inl ?_)
  rw [List.mem_flatten]
  refine ⟨_, List.mem_map.mpr ⟨t, ht, rfl⟩, ?_⟩
  exact List.mem_map.mpr ⟨d, List.mem_filter.mpr ⟨hd, by simpa using hu⟩, rfl⟩

lemma mem_dependencyErrors_cycle {ts : List TaskInput} (h : hasCycle ts = true) :
    cycleErrorMsg ∈ dependencyErrors ts := by
  unfold dependencyErrors
  refine List.mem_append.mpr (Or.inr ?_)
  simp [h]

lemma validateDependencies_error {ts : List TaskInput} (h : dependencyErrors ts ≠ []) :
    ∃ msg, validateDependencies ts = Except.error msg := by
  unfold validateDependencies
  rw [if_neg (by simpa [List.isEmpty_iff] using h)]
  exact ⟨_, rfl⟩

/-! ### Pipeline lemmas -/

lemma runCycles_succ (tpl : ParsedTemplate) (env : PipelineEnv) (fuel cycle : Nat)
    (ts : List TaskInput) (hist : List IValidationResult) (lastR : TaskResultsPair)
    (esc : Bool) (sets : List (List TaskInput)) :
    runCycles tpl env (fuel + 1) cycle ts hist lastR esc sets =
      (if tpl.gates.isEmpty then (hist, env.phase3 cycle ts, esc, sets ++ [ts])
       else if (env.phase4 cycle).allPassed then
        (hist ++ [env.phase4 cycle], env.phase3 cycle ts, esc, sets ++ [ts])
       else if tpl.max_qa_cycles ≤ cycle + 1 then
        (hist ++ [env.phase4 cycle], env.phase3 cycle ts, true, sets ++ [ts])
       else
        runCycles tpl env fuel (cycle + 1)
          (generateRetryTasks tpl env.readBrief (env.createIssues cycle)
            ((env.phase4 cycle).gateResults.filter (fun r => !r.passed)) cycle)
          (hist ++ [env.phase4 cycle]) (env.phase3 cycle ts) esc (sets ++ [ts])) := rfl

lemma successFlag_iff (l : List IValidationResult) :
    ((match l.getLast? with
      | none => true
      | some r => r.allPassed) = true) ↔
      (l = [] ∨ ∃ r, l.getLast? = some r ∧ r.allPassed = true) := by
  cases h : l.getLast? with
  | none =>
    exact iff_of_true rfl (Or.inl (List.getLast?_eq_none_iff.mp h))
  | some r =>
    constructor
    · intro hp
      exact Or.inr ⟨r, rfl, hp⟩
    · intro hor
      rcases hor with hnil | ⟨r2, hr2, hp2⟩
      · rw [hnil] at h; simp at h
      · cases hr2
        exact hp2

lemma runCycles_hist_prefix (tpl : ParsedTemplate) (env : PipelineEnv) :
    ∀ (fuel cycle : Nat) (ts : List TaskInput) (hist : List IValidationResult)
      (lastR : TaskResultsPair) (esc : Bool) (sets : List (List TaskInput)),
      ∃ suffix, (runCycles tpl env fuel cycle ts hist lastR esc sets).1 = hist ++ suffix := by
  intro fuel
  induction fuel with
  | zero =>
    intro cycle ts hist lastR esc sets
    exact ⟨[], by simp [runCycles]⟩
  | succ fuel ih =>
    intro cycle ts hist lastR esc sets
    rw [runCycles_succ]
    by_cases hG : tpl.gates.isEmpty = true
    · rw [if_pos hG]; exact ⟨[], by simp⟩
    · rw [if_neg hG]
      by_cases hP : (env.phase4 cycle).allPassed = true
      · rw [if_pos hP]; exact ⟨[env.phase4 cycle], rfl⟩
      · rw [if_neg hP]
        by_cases hE : tpl.max_qa_cycles ≤ cycle + 1
        · rw [if_pos hE]; exact ⟨[env.phase4 cycle], rfl⟩
        · rw [if_neg hE]
          obtain ⟨sfx, hsfx⟩ := ih (cycle + 1)
            (generateRetryTasks tpl env.readBrief (env.createIssues cycle)
              ((env.phase4 cycle).gateResults.filter (fun r => !r.passed)) cycle)
            (hist ++ [env.phase4 cycle]) (env.phase3 cycle ts) esc (sets ++ [ts])
          exact ⟨env.phase4 cycle :: sfx, by rw [hsfx]; simp⟩

lemma runCycles_pushes (tpl : ParsedTemplate) (env : PipelineEnv)
    (fuel cycle : Nat) (ts : List TaskInput) (hist : List IValidationResult)
    (lastR : TaskResultsPair) (esc : Bool) (sets : List (List TaskInput))
    (hg : tpl.gates ≠ []) :
    ∃ suffix, (runCycles tpl env (fuel + 1) cycle ts hist lastR esc sets).1 =
      hist ++ env.phase4 cycle :: suffix := by
  have hG : tpl.gates.isEmpty = false := by
    cases hGl : tpl.gates with
    | nil => exact absurd hGl hg
    | cons a l => rfl
  rw [runCycles_succ, hG]
  simp only [Bool.false_eq_true, if_false]
  by_cases hP : (env.phase4 cycle).allPassed = true
  · rw [if_pos hP]; exact ⟨[], rfl⟩
  · rw [if_neg hP]
    by_cases hE : tpl.max_qa_cycles ≤ cycle + 1
    · rw [if_pos hE]; exact ⟨[], rfl⟩
    · rw [if_neg hE]
      obtain ⟨sfx, hsfx⟩ := runCycles_hist_prefix tpl env fuel (cycle + 1)
        (generateRetryTasks tpl env.readBrief (env.createIssues cycle)
          ((env.phase4 cycle).gateResults.filter (fun r => !r.passed)) cycle)
        (hist ++ [env.phase4 cycle]) (env.phase3 cycle ts) esc (sets ++ [ts])
      exact ⟨sfx, by rw [hsfx]; simp⟩

lemma runCycles_sets_trace (tpl : ParsedTemplate) (env : PipelineEnv) :
    ∀ (fuel cycle : Nat) (ts : List TaskInput) (hist : List IValidationResult)
      (lastR : TaskResultsPair) (esc : Bool) (sets : List (List TaskInput)),
      ∃ new, (runCycles tpl env fuel cycle ts hist lastR esc sets).2.2.2 = sets ++ new ∧
        (0 < fuel → new.head? = some ts) ∧
        (fuel = 0 → new = []) ∧
        (∀ i l, new[i + 1]? = some l →
          l = generateRetryTasks tpl env.readBrief (env.createIssues (cycle + i))
              ((env.phase4 (cycle + i)).gateResults.filter (fun r => !r.passed)) (cycle + i)) := by
  intro fuel
  induction fuel with
  | zero =>
    intro cycle ts hist lastR esc sets
    refine ⟨[], by simp [runCycles], fun h => absurd h (by omega), fun _ => rfl, ?_⟩
    intro i l h
    simp at h
  | succ fuel ih =>
    intro cycle ts hist lastR esc sets
    rw [runCycles_succ]
    have hsingle : ∃ new, sets ++ [ts] = sets ++ new ∧
        (0 < fuel + 1 → new.head? = some ts) ∧
        (fuel + 1 = 0 → new = []) ∧
        (∀ i l, new[i + 1]? = some l →
          l = generateRetryTasks tpl env.readBrief (env.createIssues (cycle + i))
              ((env.phase4 (cycle + i)).gateResults.filter (fun r => !r.passed)) (cycle + i)) := by
      refine ⟨[ts], rfl, fun _ => rfl, fun h => absurd h (by omega), ?_⟩
      intro i l h
      rw [List.getElem?_cons_succ] at h
      simp at h
    by_cases hG : tpl.gates.isEmpty = true
    · rw [if_pos hG]; exact hsingle
    · rw [if_neg hG]
      by_cases hP : (env.phase4 cycle).allPassed = true
      · rw [if_pos hP]; exact hsingle
      · rw [if_neg hP]
        by_cases hE : tpl.max_qa_cycles ≤ cycle + 1
        · rw [if_pos hE]; exact hsingle
        · rw [if_neg hE]
          obtain ⟨new1, h1, hh1, hz1, hi1⟩ := ih (cycle + 1)
            (generateRetryTasks tpl env.readBrief (env.createIssues cycle)
              ((env.phase4 cycle).gateResults.filter (fun r => !r.passed)) cycle)
            (hist ++ [env.phase4 cycle]) (env.phase3 cycle ts) esc (sets ++ [ts])
          refine ⟨ts :: new1, by rw [h1]; simp, fun _ => rfl,
            fun h => absurd h (by omega), ?_⟩
          intro i l h
          rw [List.getElem?_cons_succ] at h
          cases i with
          | zero =>
            cases hn1 : new1 with
            | nil => rw [hn1] at h; simp at h
            | cons a t =>
              rw [hn1] at h
              simp only [List.getElem?_cons_zero, Option.some.injEq] at h
              subst h
              cases fuel with
              | zero => rw [hz1 rfl] at hn1; cases hn1
              | succ f2 =>
                have hhd := hh1 (by omega)
                rw [hn1] at hhd
                simp only [List.head?_cons, Option.some.injEq] at hhd
                rw [hhd]
                simp
          | succ j =>
            have := hi1 j l h
            rw [show cycle + 1 + j = cycle + (j + 1) from by omega] at this
            exact this

lemma runCycles_sets_len (tpl : ParsedTemplate) (env : PipelineEnv) :
    ∀ (fuel cycle : Nat) (ts : List TaskInput) (hist : List IValidationResult)
      (lastR : TaskResultsPair) (esc : Bool) (sets : List (List TaskInput)),
      (runCycles tpl env fuel cycle ts hist lastR esc sets).2.2.2.length ≤
        sets.length + fuel := by
  intro fuel
  induction fuel with
  | zero =>
    intro cycle ts hist lastR esc sets
    simp [runCycles]
  | succ fuel ih =>
    intro cycle ts hist lastR esc sets
    rw [runCycles_succ]
    by_cases hG : tpl.gates.isEmpty = true
    · rw [if_pos hG]; simp
    · rw [if_neg hG]
      by_cases hP : (env.phase4 cycle).allPassed = true
      · rw [if_pos hP]; simp
      · rw [if_neg hP]
        by_cases hE : tpl.max_qa_cycles ≤ cycle + 1
        · rw [if_pos hE]; simp
        · rw [if_neg hE]
          have := ih (cycle + 1)
            (generateRetryTasks tpl env.readBrief (env.createIssues cycle)
              ((env.phase4 cycle).gateResults.filter (fun r => !r.passed)) cycle)
            (hist ++ [env.phase4 cycle]) (env.phase3 cycle ts) esc (sets ++ [ts])
          simp only [List.length_append, List.length_singleton] at this
          omega

lemma joinSep_decomp (sep : String) :
    ∀ (l : List String) (a : String), a ∈ l →
      ∃ pre post, joinSep sep l = pre ++ a ++ post := by
  intro l
  induction l with
  | nil =>
    intro a ha
    exact absurd ha (List.not_mem_nil a)
  | cons x rest ih =>
    cases rest with
    | nil =>
      intro a ha
      have hax : a = x := by simpa using ha
      subst hax
      exact ⟨"", "", by simp [joinSep, String.empty_append, String.append_empty]⟩
    | cons y rest2 =>
      intro a ha
      rcases List.mem_cons.mp ha with hEq | hMem
      · subst hEq
        refine ⟨"", sep ++ joinSep sep (y :: rest2), ?_⟩
        simp only [joinSep, String.empty_append, String.append_assoc]
      · obtain ⟨pre, post, hp⟩ := ih a hMem
        refine ⟨x ++ sep ++ pre, post, ?_⟩
        simp only [joinSep, hp, String.append_assoc]

lemma retryPrompt_contains_block (tpl : ParsedTemplate) (rb : String → Option String)
    (issueIds : List String) (failed : List IGateResult) (r : IGateResult)
    (hr : r ∈ failed) :
    ∃ pre post, joinSep "\n\n" (retryPromptParts tpl rb issueIds failed) =
      pre ++ gateFailureBlock r ++ post := by
  have hmem : failuresToFixPart failed ∈ retryPromptParts tpl rb issueIds failed := by
    unfold retryPromptParts
    simp [List.mem_append]
  obtain ⟨pre1, post1, h1⟩ := joinSep_decomp "\n\n" _ _ hmem
  have hmem2 : gateFailureBlock r ∈ failed.map gateFailureBlock :=
    List.mem_map_of_mem gateFailureBlock hr
  obtain ⟨pre2, post2, h2⟩ := joinSep_decomp "\n\n" _ _ hmem2
  refine ⟨pre1 ++ (failuresToFixHeader ++ pre2), post2 ++ post1, ?_⟩
  rw [h1, show failuresToFixPart failed = failuresToFixHeader ++ failureSummary failed
    from rfl]
  rw [show failureSummary failed = joinSep "\n\n" (failed.map gateFailureBlock) from rfl, h2]
  simp only [String.append_assoc]

/-! ## Claims about the task queue -/

/-- Claim C2: after every sequence of Queue operations that follows the
task state machine, every task whose status is `ready` has every id in
its `dependsOn` set contained in the completed set; the `markFailed`
re-ready path (which skips the dependency recheck) preserves this because
ids are never removed from the completed set during a run. -/
theorem queue_ready_deps_completed :
    (∀ q, QReach q → ∀ t ∈ q.tasks, t.status = TaskStatus.ready →
      ∀ d ∈ t.dependsOn, d ∈ q.completed) ∧
    (∀ q q', QStep q q' → ∀ x ∈ q.completed, x ∈ q'.completed) := by
  constructor
  · intro q hq t ht hs d hd
    exact (qreach_minv hq).2 t ht (Or.inl hs) d hd
  · intro q q' hs
    exact completed_mono_qstep hs

/-- Witness for C2 at a concrete reachable queue: loading a `complete`
task `a` and a task `b` depending on it makes `b` ready with `a` in the
completed set. -/
theorem queue_ready_deps_completed_witness :
    ({ id := "b", dependsOn := ["a"], status := TaskStatus.ready, attempts := 0 } : Task)
        ∈ (addTasks {} [{ id := "a", complete := true }, { id := "b", dependsOn := ["a"] }]).1.tasks ∧
    "a" ∈ (addTasks {} [{ id := "a", complete := true }, { id := "b", dependsOn := ["a"] }]).1.completed :=
  ⟨by decide,
   queue_ready_deps_completed.1
     (addTasks {} [{ id := "a", complete := true }, { id := "b", dependsOn := ["a"] }]).1
     (QReach.load [{ id := "a", complete := true }, { id := "b", dependsOn := ["a"] }])
     { id := "b", dependsOn := ["a"], status := TaskStatus.ready, attempts := 0 }
     (by decide) (by decide) "a" (by decide)⟩

/-- Claim C3: `markRunning` increments `attempts`; `markFailed` moves the
task back to `ready` exactly when `attempts < (task.retries ?? maxRetries)`
and to terminal `failed` otherwise.  Consequently a task with
`retries = n` (n ≥ 1) that fails on every attempt is `failed` after `n`
run/fail cycles, while with `retries = n + 1` it is `ready` again after
`n` cycles (exactly one more retry) and `failed` after `n + 1`. -/
theorem task_retry_budget :
    (∀ q id error m t, TaskQueue.getTask q id = some t →
      ((statusOf (markFailed q id error m).1 id = some TaskStatus.ready ↔
          t.attempts < t.retries.getD m) ∧
       (statusOf (markFailed q id error m).1 id = some TaskStatus.failed ↔
          ¬ t.attempts < t.retries.getD m))) ∧
    (∀ q id agentId t, TaskQueue.getTask q id = some t →
      ((markRunning q id agentId).1.getTask id).map Task.attempts
        = some (t.attempts + 1)) ∧
    (∀ q id agentId error m n t, TaskQueue.getTask q id = some t →
      t.attempts = 0 → t.retries = some n → 1 ≤ n →
      statusOf (failCycles q id agentId error m n) id = some TaskStatus.failed) ∧
    (∀ q id agentId error m n t, TaskQueue.getTask q id = some t →
      t.attempts = 0 → t.status = TaskStatus.ready → t.retries = some (n + 1) →
      statusOf (failCycles q id agentId error m n) id = some TaskStatus.ready ∧
      statusOf (failCycles q id agentId error m (n + 1)) id
        = some TaskStatus.failed) := by
  refine ⟨?_, ?_, ?_, ?_⟩
  · intro q id error m t ht
    have h2 := getTask_markFailed q id error m ht
    constructor
    · constructor
      · intro hst
        by_contra hc
        rw [if_neg hc] at h2
        unfold statusOf at hst
        rw [h2] at hst
        simp at hst
      · intro hc
        rw [if_pos hc] at h2
        unfold statusOf
        rw [h2]
        rfl
    · constructor
      · intro hst
        intro hc
        rw [if_pos hc] at h2
        unfold statusOf at hst
        rw [h2] at hst
        simp at hst
      · intro hc
        rw [if_neg hc] at h2
        unfold statusOf
        rw [h2]
        rfl
  · intro q id agentId t ht
    rw [getTask_markRunning q id agentId ht]
    rfl
  · intro q id agentId error m n t ht h0 hr hn
    obtain ⟨t', h1, h2, h3, h4⟩ := failCycles_spec q id agentId error m ht h0 n hn
    simp [statusOf, h1, h4, hr]
  · intro q id agentId error m n t ht h0 hst hr
    constructor
    · by_cases hn : n = 0
      · subst hn
        show statusOf q id = some TaskStatus.ready
        simp [statusOf, ht, hst]
      · obtain ⟨t', h1, h2, h3, h4⟩ :=
          failCycles_spec q id agentId error m ht h0 n (Nat.one_le_iff_ne_zero.mpr hn)
        simp [statusOf, h1, h4, hr, Nat.lt_succ_self]
    · obtain ⟨t', h1, h2, h3, h4⟩ :=
        failCycles_spec q id agentId error m ht h0 (n + 1) (by omega)
      simp [statusOf, h1, h4, hr]

/-- Witness for C3 at a concrete task with `retries = 2`: after one
failing cycle the task is `ready` again, after two it is terminally
`failed`. -/
theorem task_retry_budget_witness :
    TaskQueue.getTask (addTask {} { id := "a", retries := some 2 }).1 "a"
        = some { id := "a", retries := some 2, status := TaskStatus.ready, attempts := 0 } ∧
    statusOf (failCycles (addTask {} { id := "a", retries := some 2 }).1 "a" "g" "e" 2 1) "a"
        = some TaskStatus.ready ∧
    statusOf (failCycles (addTask {} { id := "a", retries := some 2 }).1 "a" "g" "e" 2 2) "a"
        = some TaskStatus.failed :=
  ⟨by decide,
   (task_retry_budget.2.2.2 (addTask {} { id := "a", retries := some 2 }).1 "a" "g" "e" 2 1
     { id := "a", retries := some 2, status := TaskStatus.ready, attempts := 0 }
     (by decide) (by decide) (by decide) (by decide)).1,
   (task_retry_budget.2.2.2 (addTask {} { id := "a", retries := some 2 }).1 "a" "g" "e" 2 1
     { id := "a", retries := some 2, status := TaskStatus.ready, attempts := 0 }
     (by decide) (by decide) (by decide) (by decide)).2⟩

/-- Claim C4: the Queue emits `allComplete` only when every task is in a
terminal state (`completed`, `failed` or `paused_at_breakpoint`) and no
task is paused — so while any task is `paused_at_breakpoint` the signal
never fires.  Moreover `markPausedAtBreakpoint` adds nothing to the
completed set, changes no other task's status, and emits neither
`taskReady` nor `allComplete`, so no dependent of the paused task becomes
ready until `resumeFromBreakpoint` is called. -/
theorem breakpoint_suppresses_all_complete :
    (∀ q op, QEvent.allComplete ∈ (applyQOp q op).2 →
      (applyQOp q op).1.allDone = true ∧ (applyQOp q op).1.anyPaused = false) ∧
    (∀ q op, (applyQOp q op).1.anyPaused = true →
      QEvent.allComplete ∉ (applyQOp q op).2) ∧
    (∀ q id result,
      (markPausedAtBreakpoint q id result).1.completed = q.completed ∧
      (∀ id', id' ≠ id →
        statusOf (markPausedAtBreakpoint q id result).1 id' = statusOf q id') ∧
      (∀ i, QEvent.taskReady i ∉ (markPausedAtBreakpoint q id result).2) ∧
      QEvent.allComplete ∉ (markPausedAtBreakpoint q id result).2) := by
  refine ⟨?_, ?_, ?_⟩
  · intro q op h
    exact applyQOp_allComplete h
  · intro q op hp hmem
    rw [(applyQOp_allComplete hmem).2] at hp
    exact Bool.false_ne_true hp
  · intro q id result
    exact ⟨completed_markPaused q id result,
      fun id' hne => statusOf_markPaused_other q id result id' hne,
      (events_markPaused q id result).1,
      (events_markPaused q id result).2⟩

/-- Witness for C4: completing the only task of a one-task queue emits
`allComplete`, and at that point the queue is all-done with nothing
paused. -/
theorem breakpoint_suppresses_all_complete_witness :
    QEvent.allComplete ∈
      (applyQOp (markRunning (addTask {} { id := "a" }).1 "a" "g").1
        (QOp.markCompletedOp "a" none true)).2 ∧
    ((applyQOp (markRunning (addTask {} { id := "a" }).1 "a" "g").1
        (QOp.markCompletedOp "a" none true)).1.allDone = true ∧
     (applyQOp (markRunning (addTask {} { id := "a" }).1 "a" "g").1
        (QOp.markCompletedOp "a" none true)).1.anyPaused = false) :=
  ⟨by decide,
   breakpoint_suppresses_all_complete.1
     (markRunning (addTask {} { id := "a" }).1 "a" "g").1
     (QOp.markCompletedOp "a" none true) (by decide)⟩

/-- Counterexample to claim C8 as stated: `markRunning` has no status
guard, so a single Queue operation takes a `completed` task straight back
to `running`. -/
theorem markRunning_revives_completed_task :
    statusOf (markCompleted (markRunning (addTask {} { id := "a" }).1 "a" "agent-1").1
        "a" none true).1 "a" = some TaskStatus.completed ∧
    statusOf (markRunning (markCompleted (markRunning (addTask {} { id := "a" }).1
        "a" "agent-1").1 "a" none true).1 "a" "agent-2").1 "a"
      = some TaskStatus.running := by
  constructor
  · decide
  · decide

/-- Claim C8 (amended): when the Queue operations are invoked following
the state-machine protocol (`markRunning` only on `ready` tasks,
`markCompleted`/`markFailed`/`markPausedAtBreakpoint` only on `running`
tasks), every status change follows the state machine
`pending → ready → running → (completed | ready | failed |
paused_at_breakpoint)`, `paused_at_breakpoint → completed`; in
particular, along any such sequence a `completed` or `failed` task stays
`completed`/`failed` — there is no path back to `running`. -/
theorem queue_transitions_follow_state_machine :
    (∀ q q', QStep q q' → ∀ id s s', statusOf q id = some s →
      statusOf q' id = some s' → stepAllowed s s' = true) ∧
    (∀ q q', Relation.ReflTransGen QStep q q' → ∀ id,
      (statusOf q id = some TaskStatus.completed →
        statusOf q' id = some TaskStatus.completed) ∧
      (statusOf q id = some TaskStatus.failed →
        statusOf q' id = some TaskStatus.failed)) := by
  constructor
  · intro q q' hs id s s' h h'
    exact qstep_allowed hs h h'
  · intro q q' hst id
    exact qstepStar_absorbing hst id

/-- Witness for the amended C8 at a concrete step: marking the ready task
`a` running is the state-machine edge `ready → running`. -/
theorem queue_transitions_follow_state_machine_witness :
    statusOf (addTask {} { id := "a" }).1 "a" = some TaskStatus.ready ∧
    stepAllowed TaskStatus.ready TaskStatus.running = true :=
  ⟨by decide,
   queue_transitions_follow_state_machine.1
     (addTask {} { id := "a" }).1
     (markRunning (addTask {} { id := "a" }).1 "a" "g").1
     (QStep.runStep (addTask {} { id := "a" }).1 "a" "g" (by decide))
     "a" TaskStatus.ready TaskStatus.running (by decide) (by decide)⟩

/-! ## Claims about the orchestrator -/

/-- Claim C1: `trySpawnAgents` computes
`availableSlots = maxConcurrent - activeAgents.size`, starts nothing when
`availableSlots ≤ 0`, and otherwise starts jobs for at most
`availableSlots` ready tasks — so in every reachable orchestrator state
the number of active external jobs never exceeds the configured
`maxConcurrent` ceiling. -/
theorem orchestrator_concurrency_ceiling :
    ∀ o, OReach o → o.activeAgents.length ≤ o.maxConcurrent := by
  intro o h
  induction h with
  | init maxC inputs => exact Nat.zero_le _
  | step o o' h hs ih => exact ostep_ceiling hs ih

/-- Witness for C1: with `maxConcurrent = 1` and two ready tasks, the
started orchestrator (all job creations succeeding) holds exactly one
active agent — at, not over, the ceiling. -/
theorem orchestrator_concurrency_ceiling_witness :
    (startOrchestrator (fun x => true)
        (loadTasks { maxConcurrent := 1 } [{ id := "a" }, { id := "b" }])).activeAgents.length
      ≤ (startOrchestrator (fun x => true)
        (loadTasks { maxConcurrent := 1 } [{ id := "a" }, { id := "b" }])).maxConcurrent ∧
    (startOrchestrator (fun x => true)
        (loadTasks { maxConcurrent := 1 } [{ id := "a" }, { id := "b" }])).activeAgents.length
      = 1 :=
  ⟨orchestrator_concurrency_ceiling _
     (OReach.step _ _ (OReach.init 1 [{ id := "a" }, { id := "b" }])
       (OStep.startStep (fun x => true) _)),
   by decide⟩

/-- Claim C10: the orchestrator invokes `markFailed(taskId, error)` with
no third argument — both in the failed-agent callback and in the
job-creation catch block — so for a task without an explicit `retries`
field the hard-coded default budget of 2 attempts decides retry versus
terminal failure. -/
theorem orchestrator_default_retry_budget :
    (∀ ok o agentId error taskId t,
      lookupAgent o agentId = some taskId →
      TaskQueue.getTask o.queue taskId = some t → t.retries = none →
      o.isRunning = false →
      ((statusOf (handleAgentFailed ok o agentId error).queue taskId
          = some TaskStatus.ready ↔ t.attempts < 2) ∧
       (statusOf (handleAgentFailed ok o agentId error).queue taskId
          = some TaskStatus.failed ↔ ¬ t.attempts < 2))) ∧
    (∀ ok o task t, ok task.id = false →
      TaskQueue.getTask o.queue task.id = some t → t.retries = none →
      ((statusOf (spawnAgentStep ok o task).queue task.id
          = some TaskStatus.ready ↔ t.attempts < 2) ∧
       (statusOf (spawnAgentStep ok o task).queue task.id
          = some TaskStatus.failed ↔ ¬ t.attempts < 2))) := by
  constructor
  · intro ok o agentId error taskId t hl ht hr hrun
    unfold handleAgentFailed
    rw [hl]
    dsimp only
    rw [trySpawnAgents_not_running ok _ (by
      unfold applyQueueEvents
      split
      · rfl
      · exact hrun)]
    rw [queue_applyQueueEvents]
    have hiff := markFailed_status_iff o.queue taskId error 2 ht
    rw [hr] at hiff
    exact hiff
  · intro ok o task t hok ht hr
    unfold spawnAgentStep
    rw [hok]
    simp only [Bool.false_eq_true, if_false]
    rw [queue_applyQueueEvents]
    have hiff := markFailed_status_iff o.queue task.id "Failed to create agent" 2 ht
    rw [hr] at hiff
    exact hiff

/-- Witness for C10: a running task without a `retries` field and one
prior attempt is re-readied by the failed-agent callback (1 < 2 under the
default budget). -/
theorem orchestrator_default_retry_budget_witness :
    statusOf (handleAgentFailed (fun x => false)
      { queue := (markRunning (addTask {} { id := "a" }).1 "a" "agent-0").1,
        activeAgents := [("agent-0", "a")], maxConcurrent := 1,
        isRunning := false } "agent-0" "boom").queue "a"
      = some TaskStatus.ready :=
  (orchestrator_default_retry_budget.1 (fun x => false)
    { queue := (markRunning (addTask {} { id := "a" }).1 "a" "agent-0").1,
      activeAgents := [("agent-0", "a")], maxConcurrent := 1,
      isRunning := false } "agent-0" "boom" "a"
    { id := "a", status := TaskStatus.running, agentId := some "agent-0", attempts := 1 }
    (by decide) (by decide) (by decide) (by decide)).1.mpr (by decide)

/-- Counterexample to claim C9 as stated: a task whose job creation fails
on every attempt never reaches terminal `failed` — `attempts` is
incremented only by `markRunning`, which is never reached when
`createAgent` throws, so `markFailed` re-readies the task forever. -/
theorem creation_failure_never_terminal :
    ¬ ∃ k, statusOf (spawnAttempts (fun x => false)
        (startOrchestrator (fun x => false)
          (loadTasks { maxConcurrent := 1 } [{ id := "a" }])) k).queue "a"
      = some TaskStatus.failed := by
  rintro ⟨k, hk⟩
  have hP0 : ∃ t, (startOrchestrator (fun x => false)
      (loadTasks { maxConcurrent := 1 } [{ id := "a" }])).queue.getTask "a"
        = some t ∧ t.status = TaskStatus.ready ∧ t.attempts = 0 ∧ t.retries = none :=
    ⟨{ id := "a", status := TaskStatus.ready, attempts := 0,
       error := some "Failed to create agent" }, by decide, rfl, rfl, rfl⟩
  obtain ⟨t, ht, hs, _, _⟩ :=
    spawnAttempts_failing_preserves (fun x => rfl) _ "a" 0 none (by decide) hP0 k
  rw [statusOf, ht] at hk
  simp [hs] at hk

/-- Claim C9 (amended): a task whose job creation throws is marked failed
immediately through the same `markFailed` rule as execution failures
(with the default budget, no third argument passed); but since `attempts`
is incremented only by `markRunning`, which runs only after successful
job creation, creation failures never consume the retry budget: the
failed-creation path leaves `attempts` unchanged, and a ready task with
`attempts` below its budget stays ready with the same `attempts` under
any number of always-failing spawn attempts — it never becomes terminal
`failed`. -/
theorem spawn_failure_never_consumes_retry_budget :
    (∀ ok o task t, ok task.id = false →
      TaskQueue.getTask o.queue task.id = some t →
      (spawnAgentStep ok o task).queue
          = (markFailed o.queue task.id "Failed to create agent").1 ∧
      ((markFailed o.queue task.id "Failed to create agent").1.getTask task.id).map
          Task.attempts = some t.attempts) ∧
    (∀ ok o id a r, (∀ x, ok x = false) → a < r.getD 2 →
      (∃ t, TaskQueue.getTask o.queue id = some t ∧ t.status = TaskStatus.ready ∧
        t.attempts = a ∧ t.retries = r) →
      ∀ k, ∃ t, (spawnAttempts ok o k).queue.getTask id = some t ∧
        t.status = TaskStatus.ready ∧ t.attempts = a ∧ t.retries = r) := by
  constructor
  · intro ok o task t hok ht
    constructor
    · unfold spawnAgentStep
      rw [hok]
      simp only [Bool.false_eq_true, if_false]
      rw [queue_applyQueueEvents]
    · rw [getTask_markFailed o.queue task.id "Failed to create agent" 2 ht]
      by_cases hc : t.attempts < t.retries.getD 2
      · rw [if_pos hc]
        rfl
      · rw [if_neg hc]
        rfl
  · intro ok o id a r hok hbudget hP k
    exact spawnAttempts_failing_preserves hok o id a r hbudget hP k

/-- Witness for the amended C9: three consecutive failing spawn attempts
leave the concrete task `a` ready with `attempts = 0`. -/
theorem spawn_failure_never_consumes_retry_budget_witness :
    statusOf (spawnAttempts (fun x => false)
      (startOrchestrator (fun x => false)
        (loadTasks { maxConcurrent := 1 } [{ id := "a" }])) 3).queue "a"
      = some TaskStatus.ready := by
  obtain ⟨t, ht, hs, ha, hr⟩ :=
    spawn_failure_never_consumes_retry_budget.2 (fun x => false)
      (startOrchestrator (fun x => false)
        (loadTasks { maxConcurrent := 1 } [{ id := "a" }])) "a" 0 none
      (fun x => rfl) (by decide)
      ⟨{ id := "a", status := TaskStatus.ready, attempts := 0,
         error := some "Failed to create agent" }, by decide, rfl, rfl, rfl⟩ 3
  rw [statusOf, ht]
  simp [hs]

/-! ## Claims about template validation -/

/-- **Claim C5.** Any task set in which some `dependsOn` id does not name a
task in the same set, or whose dependency relation contains a cycle, is
rejected at task-set construction time: `validateDependencies` (which
`parseTemplate` runs before handing the task set to anyone, so zero external
jobs are started) throws an error, its error list contains one message for
every unknown dependency, and a cyclic graph is reported with the cycle
message. -/
theorem dependency_validation_rejects (ts : List TaskInput)
    (h : (∃ t ∈ ts, ∃ d ∈ t.dependsOn, d ∉ ts.map TaskInput.id) ∨ CyclicDeps ts) :
    (∃ msg, validateDependencies ts = Except.error msg) ∧
    (∀ t ∈ ts, ∀ d ∈ t.dependsOn, d ∉ ts.map TaskInput.id →
      unknownDepMsg t.id d ∈ dependencyErrors ts) ∧
    (CyclicDeps ts → cycleErrorMsg ∈ dependencyErrors ts) := by
  have h2 : ∀ t ∈ ts, ∀ d ∈ t.dependsOn, d ∉ ts.map TaskInput.id →
      unknownDepMsg t.id d ∈ dependencyErrors ts :=
    fun t ht d hd hu => mem_dependencyErrors_unknown ht hd hu
  have h3 : CyclicDeps ts → cycleErrorMsg ∈ dependencyErrors ts :=
    fun hc => mem_dependencyErrors_cycle (cyclicDeps_hasCycle hc)
  refine ⟨?_, h2, h3⟩
  apply validateDependencies_error
  rcases h with ⟨t, ht, d, hd, hu⟩ | hc
  · exact List.ne_nil_of_mem (h2 t ht d hd hu)
  · exact List.ne_nil_of_mem (h3 hc)

/-- The two-task set `A depends on B depends on A` of the claim is rejected
with the cycle message. -/
theorem dependency_validation_rejects_witness :
    (∃ msg, validateDependencies
        [{ id := "A", dependsOn := ["B"] }, { id := "B", dependsOn := ["A"] }] =
      Except.error msg) ∧
    cycleErrorMsg ∈ dependencyErrors
        [{ id := "A", dependsOn := ["B"] }, { id := "B", dependsOn := ["A"] }] := by
  have hAB : "B" ∈ depsOf
      [{ id := "A", dependsOn := ["B"] }, { id := "B", dependsOn := ["A"] }] "A" := by
    decide
  have hBA : "A" ∈ depsOf
      [{ id := "A", dependsOn := ["B"] }, { id := "B", dependsOn := ["A"] }] "B" := by
    decide
  have hcyc : CyclicDeps
      [{ id := "A", dependsOn := ["B"] }, { id := "B", dependsOn := ["A"] }] :=
    ⟨"A", DepPath.cons hAB (DepPath.single hBA)⟩
  have hmain := dependency_validation_rejects
    [{ id := "A", dependsOn := ["B"] }, { id := "B", dependsOn := ["A"] }]
    (Or.inr hcyc)
  exact ⟨hmain.1, hmain.2.2 hcyc⟩

/-! ## Claims about the pipeline controller -/

/-- **Claim C6.** For every pipeline run the `success` flag of the returned
result is true iff either no validation cycles were recorded or the last
recorded cycle has `allPassed`; under the schema bound `max_qa_cycles ≥ 1`,
"no cycles recorded" happens exactly when no gates are configured; and with
`max_qa_cycles = 1` and a first validation that fails, exactly one cycle is
recorded, escalation is signalled, and `success` is false. -/
theorem pipeline_success_iff_last_cycle_passed (tpl : ParsedTemplate) (env : PipelineEnv)
    (hmax : 1 ≤ tpl.max_qa_cycles) :
    ((runPipeline tpl env).success = true ↔
      ((runPipeline tpl env).cycles = [] ∨
        ∃ r, (runPipeline tpl env).cycles.getLast? = some r ∧ r.allPassed = true)) ∧
    ((runPipeline tpl env).cycles = [] ↔ tpl.gates = []) ∧
    (tpl.max_qa_cycles = 1 → tpl.gates ≠ [] → (env.phase4 0).allPassed = false →
      (runPipeline tpl env).cycles = [env.phase4 0] ∧
      (runPipeline tpl env).escalated = true ∧
      (runPipeline tpl env).success = false) := by
  obtain ⟨m, hm⟩ : ∃ m, tpl.max_qa_cycles = m + 1 := ⟨tpl.max_qa_cycles - 1, by omega⟩
  refine ⟨successFlag_iff _, ⟨?_, ?_⟩, ?_⟩
  · intro hc
    by_contra hg
    simp only [runPipeline] at hc
    rw [hm] at hc
    obtain ⟨sfx, hsfx⟩ := runCycles_pushes tpl env m 0 tpl.tasks [] {} false [] hg
    rw [hsfx] at hc
    simp at hc
  · intro hg
    have hG : tpl.gates.isEmpty = true := by rw [hg]; rfl
    simp only [runPipeline]
    rw [hm, runCycles_succ, if_pos hG]
  · intro hm1 hg hfail
    have hG : tpl.gates.isEmpty = false := by
      cases hGl : tpl.gates with
      | nil => exact absurd hGl hg
      | cons a l => rfl
    have hstep : runCycles tpl env tpl.max_qa_cycles 0 tpl.tasks [] {} false [] =
        ([env.phase4 0], env.phase3 0 tpl.tasks, true, [tpl.tasks]) := by
      rw [show tpl.max_qa_cycles = 0 + 1 from by omega, runCycles_succ, hG]
      simp only [Bool.false_eq_true, if_false]
      rw [if_neg (by simp [hfail]), if_pos (by omega)]
      simp
    refine ⟨?_, ?_, ?_⟩
    · simp only [runPipeline, hstep]
    · simp only [runPipeline, hstep]
    · simp only [runPipeline, hstep]
      simp [hfail]

/-- The one-gate, one-cycle template whose gate fails: one recorded cycle,
escalation, and a failed pipeline. -/
theorem pipeline_success_iff_last_cycle_passed_witness :
    (runPipeline qaTemplate qaEnv).cycles = [qaEnv.phase4 0] ∧
    (runPipeline qaTemplate qaEnv).escalated = true ∧
    (runPipeline qaTemplate qaEnv).success = false := by
  have h := pipeline_success_iff_last_cycle_passed qaTemplate qaEnv (by decide)
  exact h.2.2 rfl (by decide) rfl

/-- **Claim C7.** `generateRetryTasks` always produces exactly one task, and
that task's prompt contains the failure block of every failing gate; in a
pipeline run the first executed task set is the template's, every later one
is exactly the generated one-task list (replacing, not appending to, the
previous set), and at most `max_qa_cycles` task sets are ever executed (in
particular, the last allowed cycle generates no retry set). -/
theorem single_retry_task_replaces_task_set (tpl : ParsedTemplate) (env : PipelineEnv)
    (hmax : 1 ≤ tpl.max_qa_cycles) :
    (∀ (rb : String → Option String) (issueIds : List String)
        (failed : List IGateResult) (cycle : Nat),
      ∃ task, generateRetryTasks tpl rb issueIds failed cycle = [task] ∧
        ∀ r ∈ failed, ∃ pre post, task.prompt = pre ++ gateFailureBlock r ++ post) ∧
    (runPipeline tpl env).taskSets.head? = some tpl.tasks ∧
    (∀ i l, (runPipeline tpl env).taskSets[i + 1]? = some l →
      l = generateRetryTasks tpl env.readBrief (env.createIssues i)
          ((env.phase4 i).gateResults.filter (fun r => !r.passed)) i) ∧
    (runPipeline tpl env).taskSets.length ≤ tpl.max_qa_cycles := by
  obtain ⟨new, hout, hh, _, hidx⟩ :=
    runCycles_sets_trace tpl env tpl.max_qa_cycles 0 tpl.tasks [] {} false []
  have hsets : (runPipeline tpl env).taskSets = new := by
    simp only [runPipeline]
    rw [hout]
    exact List.nil_append new
  refine ⟨?_, ?_, ?_, ?_⟩
  · intro rb issueIds failed cycle
    exact ⟨_, rfl, fun r hr => retryPrompt_contains_block tpl rb issueIds failed r hr⟩
  · rw [hsets]
    exact hh (by omega)
  · intro i l hil
    rw [hsets] at hil
    have := hidx i l hil
    simpa using this
  · have hlen := runCycles_sets_len tpl env tpl.max_qa_cycles 0 tpl.tasks [] {} false []
    rw [hout] at hlen
    rw [hsets]
    simpa using hlen

/-- Concrete retry-task generation for the failing one-gate run: one task
whose prompt carries the failing gate's block, and a bounded task-set
trace. -/
theorem single_retry_task_replaces_task_set_witness :
    (∃ task, generateRetryTasks qaTemplate qaEnv.readBrief ["bd-1"]
        ((qaEnv.phase4 0).gateResults.filter (fun r => !r.passed)) 0 = [task] ∧
      ∀ r ∈ (qaEnv.phase4 0).gateResults.filter (fun r => !r.passed),
        ∃ pre post, task.prompt = pre ++ gateFailureBlock r ++ post) ∧
    (runPipeline qaTemplate qaEnv).taskSets.head? = some qaTemplate.tasks ∧
    (runPipeline qaTemplate qaEnv).taskSets.length ≤ qaTemplate.max_qa_cycles := by
  have h := single_retry_task_replaces_task_set qaTemplate qaEnv (by decide)
  exact ⟨h.1 qaEnv.readBrief ["bd-1"] _ 0, h.2.1, h.2.2.2⟩

end Spawnee

section SanityChecks

open Spawnee

example :
    (addTasks {} [{ id := "a" }, { id := "b", dependsOn := ["a"] }]).1.getTask "a"
      = some { id := "a", status := TaskStatus.ready, attempts := 0 } := by decide

example :
    (addTasks {} [{ id := "a" }, { id := "b", dependsOn := ["a"] }]).1.getTask "b"
      = some { id := "b", dependsOn := ["a"], status := TaskStatus.pending, attempts := 0 } := by
  decide

example :
    ((markCompleted (addTasks {} [{ id := "a" }]).1 "a" none).2).contains QEvent.allComplete
      = true := by decide

end SanityChecks
